import Mathlib

/-!
Verification of the domain-decomposed mesh core of the tempestmodel
repository (src/src/atm/Grid.cpp and src/src/atm/GridPatch.cpp).

The C++ code is shallowly embedded: machine ints become ℤ or ℕ, C++
vectors become lists, field values become ℝ, and each fatal
`_EXCEPTIONT` branch becomes an explicit error value.  Functions keep
the names of the source functions they embed wherever Lean allows it.
Classes declared in headers that are not part of the two source files
(PatchBox, ConsolidationStatus, the GridPatch::InvalidIndex sentinel)
are modelled from the specification and marked as such in their doc
comments.
-/

namespace Tempest

/-- Compass directions used by the connectivity code (Direction enum).
The four edge directions and the four corner directions. -/
inductive Direction where
  | DirRight
  | DirTop
  | DirLeft
  | DirBottom
  | DirTopRight
  | DirTopLeft
  | DirBottomLeft
  | DirBottomRight
deriving DecidableEq, Repr

/-- Data types handled by checksum, exchange and consolidation
(the members of the DataType enum that the verified claims mention). -/
inductive DataType where
  | State
  | Tracers
  | Jacobian
  | Topography
  | Longitude
  | Latitude
  | Z
deriving DecidableEq, Repr

/-- Modelled from the spec: PatchBox is the immutable geometric
descriptor of one patch (panel id, halo width, global interior index
range on each of the two local axes).  PatchBox.h is not among the
provided source files; the fields and accessors below follow the
specification of §3 and the accessor names used by Grid.cpp and
GridPatch.cpp. -/
structure PatchBox where
  panel : ℤ
  haloElements : ℤ
  aGlobalBegin : ℤ
  aGlobalEnd : ℤ
  bGlobalBegin : ℤ
  bGlobalEnd : ℤ
deriving DecidableEq, Repr

/-- Interior width along the alpha axis. -/
def PatchBox.GetAInteriorWidth (b : PatchBox) : ℤ :=
  b.aGlobalEnd - b.aGlobalBegin

/-- Interior width along the beta axis. -/
def PatchBox.GetBInteriorWidth (b : PatchBox) : ℤ :=
  b.bGlobalEnd - b.bGlobalBegin

/-- Modelled from the spec: local interior begin on the alpha axis; the
interior is offset from the patch origin by the halo width (total
extent = interior width + 2 × halo width). -/
def PatchBox.GetAInteriorBegin (b : PatchBox) : ℤ :=
  b.haloElements

/-- Local interior end on the alpha axis. -/
def PatchBox.GetAInteriorEnd (b : PatchBox) : ℤ :=
  b.haloElements + b.GetAInteriorWidth

/-- Local interior begin on the beta axis. -/
def PatchBox.GetBInteriorBegin (b : PatchBox) : ℤ :=
  b.haloElements

/-- Local interior end on the beta axis. -/
def PatchBox.GetBInteriorEnd (b : PatchBox) : ℤ :=
  b.haloElements + b.GetBInteriorWidth

/-- Modelled from the spec: the interior perimeter of a well-formed
PatchBox is twice the sum of the two interior widths. -/
def PatchBox.GetInteriorPerimeter (b : PatchBox) : ℤ :=
  2 * (b.GetAInteriorWidth + b.GetBInteriorWidth)

/-- Total width along the alpha axis (interior plus two halos). -/
def PatchBox.GetATotalWidth (b : PatchBox) : ℤ :=
  b.GetAInteriorWidth + 2 * b.haloElements

/-- Total width along the beta axis (interior plus two halos). -/
def PatchBox.GetBTotalWidth (b : PatchBox) : ℤ :=
  b.GetBInteriorWidth + 2 * b.haloElements

/-- Total (2D) node count of the box. -/
def PatchBox.GetTotalNodes (b : PatchBox) : ℤ :=
  b.GetATotalWidth * b.GetBTotalWidth

/-! ### Grid::AddPatch (Grid.cpp lines 706-727) -/

/-- One registered patch: the index stamped by AddPatch and the total
node count reported by GridPatch::GetTotalNodeCount. -/
structure GPatch where
  ixPatch : ℕ
  totalNodeCount : ℕ
deriving DecidableEq, Repr

/-- Patch-collection state owned by Grid: the vector of patches and the
cumulative 2D node-index array. -/
structure GridPatchState where
  vecGridPatches : List GPatch
  vecCumulativePatch2DNodeIndex : List ℕ
deriving DecidableEq, Repr

/-- The empty grid: no patches registered, cumulative array empty. -/
def emptyGridPatchState : GridPatchState :=
  { vecGridPatches := [], vecCumulativePatch2DNodeIndex := [] }

/-- Embeds Grid::AddPatch: the next patch index is the current size of
the patch vector; the patch is appended and stamped with that index;
on the first call a 0 entry is pushed onto the cumulative array; then
the entry cumulative[ixNextPatch] + node count is pushed. -/
def addPatch (g : GridPatchState) (nodeCount : ℕ) : GridPatchState :=
  let ixNextPatch := g.vecGridPatches.length
  let cum :=
    if ixNextPatch = 0 then
      g.vecCumulativePatch2DNodeIndex ++ [0]
    else
      g.vecCumulativePatch2DNodeIndex
  { vecGridPatches :=
      g.vecGridPatches ++ [{ ixPatch := ixNextPatch, totalNodeCount := nodeCount }],
    vecCumulativePatch2DNodeIndex :=
      cum ++ [cum.getD ixNextPatch 0 + nodeCount] }

/-- A sequence of AddPatch calls starting from the empty grid, one call
per entry of the node-count list. -/
def buildGrid (counts : List ℕ) : GridPatchState :=
  counts.foldl addPatch emptyGridPatchState

/-- Embeds Grid::GetTotalNodeCount (Grid.cpp lines 303-314): the sum
over all patches of the per-patch total node count. -/
def GridPatchState.GetTotalNodeCount (g : GridPatchState) : ℕ :=
  (g.vecGridPatches.map GPatch.totalNodeCount).sum

/-- The intended shape of the cumulative 2D node-index array after a
nonempty sequence of AddPatch calls: entry k is the total node count
of the first k patches. -/
def cumulList (counts : List ℕ) : List ℕ :=
  (List.range (counts.length + 1)).map (fun k => (counts.take k).sum)

/-! ### Grid::DistributePatches (Grid.cpp lines 948-968) -/

/-- Initialization action applied to one patch during
DistributePatches: either full local data allocation
(InitializeDataLocal) or a geometry-only stub recording the remote
owner (InitializeDataRemote). -/
inductive PatchInit where
  | dataLocal
  | dataRemote (iProcessor : ℕ)
deriving DecidableEq, Repr

/-- The per-patch branch of Grid::DistributePatches: patch n is owned
by process n % nSize; the owning rank initializes local data, every
other rank records the owner in a stub. -/
def patchInitAction (nSize nRank n : ℕ) : PatchInit :=
  if n % nSize = nRank then PatchInit.dataLocal else PatchInit.dataRemote (n % nSize)

/-- Embeds the loop of Grid::DistributePatches as seen by one process
of rank nRank: the action applied to each of the nPatches patches. -/
def distributePatches (nPatches nSize nRank : ℕ) : List PatchInit :=
  (List.range nPatches).map (patchInitAction nSize nRank)

/-- The active-patch list built by DistributePatches on rank nRank:
patch n is pushed exactly when n % nSize = nRank. -/
def activeGridPatches (nPatches nSize nRank : ℕ) : List ℕ :=
  (List.range nPatches).filter (fun n => n % nSize = nRank)

/-- Load of one process: how many patches its active list holds. -/
def processLoad (nPatches nSize nRank : ℕ) : ℕ :=
  (activeGridPatches nPatches nSize nRank).length

/-! ### Data-slot index guards (GridPatch.cpp) -/

/-- Guard of GridPatch::Send for state data (GridPatch.cpp line 1165):
the fatal branch fires when iDataIndex < 0 or iDataIndex > size.  Note
the strict greater-than: the index equal to the slot count passes. -/
def sendStateSlotRaises (iDataIndex nSlots : ℤ) : Prop :=
  iDataIndex < 0 ∨ iDataIndex > nSlots

/-- Guard of GridPatch::Send for tracer data (GridPatch.cpp line 1175),
with the same strict greater-than comparison. -/
def sendTracersSlotRaises (iDataIndex nSlots : ℤ) : Prop :=
  iDataIndex < 0 ∨ iDataIndex > nSlots

/-- Guard of GridPatch::Receive for state data (GridPatch.cpp
line 1216). -/
def receiveStateSlotRaises (iDataIndex nSlots : ℤ) : Prop :=
  iDataIndex < 0 ∨ iDataIndex > nSlots

/-- Guard of GridPatch::CopyData for one slot argument (GridPatch.cpp
lines 1299-1304): rejects indices below zero or at or above the slot
count. -/
def copyDataSlotRaises (ix nSlots : ℤ) : Prop :=
  ix < 0 ∨ ix ≥ nSlots

/-- Guard of GridPatch::ZeroData (GridPatch.cpp lines 1420-1431). -/
def zeroDataSlotRaises (ixData nSlots : ℤ) : Prop :=
  ixData < 0 ∨ ixData ≥ nSlots

/-- Guard of GridPatch::LinearCombineData on the destination slot
(GridPatch.cpp lines 1341-1343 and 1374-1376). -/
def linearCombineSlotRaises (ixDest nSlots : ℤ) : Prop :=
  ixDest < 0 ∨ ixDest ≥ nSlots

/-- Guard of GridPatch::AddReferenceState (GridPatch.cpp
lines 1468-1470). -/
def addReferenceStateSlotRaises (ix nSlots : ℤ) : Prop :=
  ix < 0 ∨ ix ≥ nSlots

instance (i n : ℤ) : Decidable (sendStateSlotRaises i n) := by
  unfold sendStateSlotRaises; infer_instance

instance (i n : ℤ) : Decidable (sendTracersSlotRaises i n) := by
  unfold sendTracersSlotRaises; infer_instance

instance (i n : ℤ) : Decidable (receiveStateSlotRaises i n) := by
  unfold receiveStateSlotRaises; infer_instance

instance (i n : ℤ) : Decidable (copyDataSlotRaises i n) := by
  unfold copyDataSlotRaises; infer_instance

instance (i n : ℤ) : Decidable (zeroDataSlotRaises i n) := by
  unfold zeroDataSlotRaises; infer_instance

instance (i n : ℤ) : Decidable (linearCombineSlotRaises i n) := by
  unfold linearCombineSlotRaises; infer_instance

instance (i n : ℤ) : Decidable (addReferenceStateSlotRaises i n) := by
  unfold addReferenceStateSlotRaises; infer_instance

/-! ### Zero-tracer guards (Grid.cpp lines 185-196 and 443-448) -/

/-- Outcome of the entry branch of a tracer-capable operation. -/
inductive TracerOpOutcome where
  | fatalError
  | silentReturn
  | proceeds
  | invalidTypeError
deriving DecidableEq, Repr

/-- Embeds the DataType dispatch at the top of Grid::Checksum (Grid.cpp
lines 185-196): state data proceeds; tracer data with a zero tracer
count returns silently without computing anything; any other data type
is the fatal invalid-DataType branch. -/
def gridChecksumEntryBranch (eDataType : DataType) (nTracers : ℤ) : TracerOpOutcome :=
  match eDataType with
  | DataType.State => TracerOpOutcome.proceeds
  | DataType.Tracers =>
      if nTracers = 0 then TracerOpOutcome.silentReturn else TracerOpOutcome.proceeds
  | _ => TracerOpOutcome.invalidTypeError

/-- Embeds the zero-tracer guard of Grid::ConsolidateDataToRoot
(Grid.cpp lines 443-448): requesting tracer consolidation while the
model holds zero tracers is fatal. -/
def consolidateToRootTracerBranch (fContainsTracers : Bool) (nTracers : ℤ) :
    TracerOpOutcome :=
  if fContainsTracers = true ∧ nTracers = 0 then
    TracerOpOutcome.fatalError
  else
    TracerOpOutcome.proceeds

/-! ### ConsolidationStatus and Grid::ConsolidateDataAtRoot
(Grid.cpp lines 348-431) -/

/-- Modelled from the spec: ConsolidationStatus maps (patch index,
data type) pairs to received/not-received and is terminal when every
expected entry is marked received.  ConsolidationStatus.h is not among
the provided source files. -/
structure ConsolidationStatus where
  expected : List (ℤ × DataType)
  received : List (ℤ × DataType)
deriving DecidableEq, Repr

/-- Modelled from the spec: SetReceiveStatus records one (patch, data
type) pair as received. -/
def ConsolidationStatus.SetReceiveStatus (st : ConsolidationStatus)
    (ixPatch : ℤ) (eDataType : DataType) : ConsolidationStatus :=
  { st with received := st.received ++ [(ixPatch, eDataType)] }

/-- Modelled from the spec: the round is done when every expected
(patch, data type) pair has been marked received. -/
def ConsolidationStatus.Done (st : ConsolidationStatus) : Bool :=
  st.expected.all (fun e => decide (e ∈ st.received))

/-- Model-level constants consumed by the consolidation protocol: the
component and tracer counts of the equation set, the vertical element
count, and the geometry of every registered patch. -/
structure ConsGrid where
  nComponents : ℤ
  nTracers : ℤ
  nRElements : ℤ
  patchBoxes : List PatchBox
deriving DecidableEq, Repr

/-- One consolidation message as seen at the root after MPI_Recv: the
(patch index, data type) pair decoded from the tag (the tag encoding
is lossless over the valid domain, so the decoded pair is carried
directly) and the received element count from MPI_Get_count. -/
structure ConsMsg where
  ixPatch : ℤ
  eDataType : DataType
  nRecvCount : ℤ
deriving DecidableEq, Repr

/-- Fatal branches of Grid::ConsolidateDataAtRoot.  recvWouldBlock
stands for the blocking MPI_Recv with no incoming message, which in
the source never returns; no claim exercises it. -/
inductive ConsError where
  | nonRootCaller
  | consolidateAfterDone
  | recvWouldBlock
  | patchIndexOutOfRange
  | stateDimensionMismatch
  | tracersDimensionMismatch
  | jacobianDimensionMismatch
deriving DecidableEq, Repr

/-- Outcome of one call to Grid::ConsolidateDataAtRoot: the raised
fatal error if any, the consolidation status after the call, and the
remaining message queue. -/
structure ConsRootResult where
  err : Option ConsError
  status : ConsolidationStatus
  queue : List ConsMsg
deriving DecidableEq, Repr

/-- Placeholder box used for the total indexing function; never
reached when the patch index has been validated. -/
def defaultPatchBox : PatchBox :=
  { panel := 0, haloElements := 0,
    aGlobalBegin := 0, aGlobalEnd := 0, bGlobalBegin := 0, bGlobalEnd := 0 }

/-- Embeds Grid::ConsolidateDataAtRoot (Grid.cpp lines 348-431).  The
order of operations follows the source: the non-root check, the
Done() check (both before the receive), the blocking receive, the
patch-index range check, SetReceiveStatus, and then the per-data-type
element-count checks.  State, Tracers and Jacobian messages have their
count compared against the size expected from the patch geometry and
the model counts; the remaining data types are not checked (the source
carries a pragma noting the missing checks). -/
def consolidateDataAtRoot (g : ConsGrid) (nRank : ℤ)
    (st : ConsolidationStatus) (queue : List ConsMsg) : ConsRootResult :=
  if nRank ≠ 0 then
    { err := some ConsError.nonRootCaller, status := st, queue := queue }
  else if st.Done then
    { err := some ConsError.consolidateAfterDone, status := st, queue := queue }
  else
    match queue with
    | [] => { err := some ConsError.recvWouldBlock, status := st, queue := queue }
    | msg :: rest =>
      let ixRecvPatch := msg.ixPatch
      if ixRecvPatch < 0 ∨ ixRecvPatch ≥ (g.patchBoxes.length : ℤ) then
        { err := some ConsError.patchIndexOutOfRange, status := st, queue := rest }
      else
        let st1 := st.SetReceiveStatus ixRecvPatch msg.eDataType
        let box := g.patchBoxes.getD ixRecvPatch.toNat defaultPatchBox
        match msg.eDataType with
        | DataType.State =>
          if g.nComponents * g.nRElements * box.GetTotalNodes ≠ msg.nRecvCount then
            { err := some ConsError.stateDimensionMismatch, status := st1, queue := rest }
          else
            { err := none, status := st1, queue := rest }
        | DataType.Tracers =>
          if g.nTracers * g.nRElements * box.GetTotalNodes ≠ msg.nRecvCount then
            { err := some ConsError.tracersDimensionMismatch, status := st1, queue := rest }
          else
            { err := none, status := st1, queue := rest }
        | DataType.Jacobian =>
          if g.nRElements * box.GetTotalNodes ≠ msg.nRecvCount then
            { err := some ConsError.jacobianDimensionMismatch, status := st1, queue := rest }
          else
            { err := none, status := st1, queue := rest }
        | _ => { err := none, status := st1, queue := rest }

/-! ### GridPatch::ExteriorConnect (GridPatch.cpp lines 494-649) -/

/-- Answer of Grid::GetOpposingDirection for a pair of panels and a
direction: the matching direction on the neighbor, the reverse-order
flag and the axis-flip flag.  The topology table itself is an external
collaborator; the connect code only consumes its answer. -/
structure OpposingInfo where
  dirOpposing : Direction
  fReverseDirection : Bool
  fFlippedCoordinate : Bool
deriving DecidableEq, Repr

/-- One exterior neighbor relation as constructed by ExteriorConnect. -/
structure ExteriorNeighbor where
  dirFirst : Direction
  dirOpposing : Direction
  ixNeighborPatch : ℤ
  fReverseDirection : Bool
  fFlippedCoordinate : Bool
  nBoundarySize : ℤ
  ixFirst : ℤ
  ixSecond : ℤ
deriving DecidableEq, Repr

/-- Fatal branch of the four diagonal bounds checks of
ExteriorConnect. -/
inductive ConnectError where
  | insufficientInterior
deriving DecidableEq, Repr

/-- Whether a direction is one of the four straight edges. -/
def Direction.isEdge : Direction → Bool
  | Direction.DirRight => true
  | Direction.DirTop => true
  | Direction.DirLeft => true
  | Direction.DirBottom => true
  | _ => false

/-- Whether a direction is one of the four corners. -/
def Direction.isCorner : Direction → Bool
  | Direction.DirTopRight => true
  | Direction.DirTopLeft => true
  | Direction.DirBottomLeft => true
  | Direction.DirBottomRight => true
  | _ => false

/-- Embeds the four-argument GridPatch::ExteriorConnect (GridPatch.cpp
lines 545-649) for one patch with box boxFirst.  A NULL second patch
returns without doing anything.  For edge directions the boundary size
is ixSecond - ixFirst; for corner directions it is the halo width, and
the four diagonal bounds checks of lines 598-628 are fatal when they
fire.  On success the constructed ExteriorNeighbor is returned (the
source then sizes its buffers and adds it to the Connectivity). -/
def exteriorConnect (opposing : ℤ → ℤ → Direction → OpposingInfo)
    (boxFirst : PatchBox) (nHaloElements : ℤ)
    (pPatchSecond : Option (ℤ × PatchBox)) (dirFirst : Direction)
    (ixFirst ixSecond : ℤ) : Except ConnectError (Option ExteriorNeighbor) :=
  match pPatchSecond with
  | none => Except.ok none
  | some (ixPatchSecond, boxSecond) =>
    let info := opposing boxFirst.panel boxSecond.panel dirFirst
    let nBoundarySize : ℤ :=
      if dirFirst.isEdge then ixSecond - ixFirst else nHaloElements
    if dirFirst = Direction.DirTopRight ∧
        (ixFirst < boxFirst.GetAInteriorBegin + nBoundarySize - 1 ∨
         ixSecond < boxFirst.GetBInteriorBegin + nBoundarySize - 1) then
      Except.error ConnectError.insufficientInterior
    else if dirFirst = Direction.DirTopLeft ∧
        (ixFirst > boxFirst.GetAInteriorEnd - nBoundarySize ∨
         ixSecond < boxFirst.GetBInteriorBegin + nBoundarySize - 1) then
      Except.error ConnectError.insufficientInterior
    else if dirFirst = Direction.DirBottomLeft ∧
        (ixFirst > boxFirst.GetAInteriorEnd - nBoundarySize ∨
         ixSecond > boxFirst.GetBInteriorEnd - nBoundarySize) then
      Except.error ConnectError.insufficientInterior
    else if dirFirst = Direction.DirBottomRight ∧
        (ixFirst < boxFirst.GetAInteriorBegin + nBoundarySize - 1 ∨
         ixSecond > boxFirst.GetBInteriorEnd - nBoundarySize) then
      Except.error ConnectError.insufficientInterior
    else
      Except.ok (some
        { dirFirst := dirFirst,
          dirOpposing := info.dirOpposing,
          ixNeighborPatch := ixPatchSecond,
          fReverseDirection := info.fReverseDirection,
          fFlippedCoordinate := info.fFlippedCoordinate,
          nBoundarySize := nBoundarySize,
          ixFirst := ixFirst,
          ixSecond := ixSecond })

/-- The insufficiency condition of the claim, stated as counts of
contiguous interior elements on the two sides of the corner position:
a diagonal connection in a corner direction needs at least haloWidth
contiguous interior elements on each adjacent side. -/
def specDiagonalInsufficient (b : PatchBox) (nHaloElements : ℤ)
    (dir : Direction) (ixFirst ixSecond : ℤ) : Prop :=
  match dir with
  | Direction.DirTopRight =>
      ixFirst - b.GetAInteriorBegin + 1 < nHaloElements ∨
      ixSecond - b.GetBInteriorBegin + 1 < nHaloElements
  | Direction.DirTopLeft =>
      b.GetAInteriorEnd - ixFirst < nHaloElements ∨
      ixSecond - b.GetBInteriorBegin + 1 < nHaloElements
  | Direction.DirBottomLeft =>
      b.GetAInteriorEnd - ixFirst < nHaloElements ∨
      b.GetBInteriorEnd - ixSecond < nHaloElements
  | Direction.DirBottomRight =>
      ixFirst - b.GetAInteriorBegin + 1 < nHaloElements ∨
      b.GetBInteriorEnd - ixSecond < nHaloElements
  | _ => False

instance (b : PatchBox) (h : ℤ) (d : Direction) (i1 i2 : ℤ) :
    Decidable (specDiagonalInsufficient b h d i1 i2) := by
  unfold specDiagonalInsufficient
  cases d <;> infer_instance

/-! ### Grid::InitializeConnectivity (Grid.cpp lines 972-1304) -/

/-- Ascending integer range: lo, lo+1, ..., hi-1 (the samples pushed
by a for loop running from lo while strictly below hi). -/
def intAsc (lo hi : ℤ) : List ℤ :=
  (List.range (hi - lo).toNat).map (fun (k : ℕ) => lo + (k : ℤ))

/-- Descending integer range: hi, hi-1, ..., lo (the samples pushed by
a for loop running from hi down while at least lo). -/
def intDesc (hi lo : ℤ) : List ℤ :=
  (List.range (hi - lo + 1).toNat).map (fun (k : ℕ) => hi - (k : ℤ))

/-- Embeds the sample-generation pass of Grid::InitializeConnectivity
(Grid.cpp lines 994-1058): the (alpha, beta) coordinate of every
boundary sample of one patch, in traversal order — bottom-left corner,
bottom edge left to right, bottom-right corner, right edge bottom to
top, top-right corner, top edge right to left, top-left corner, left
edge top to bottom. -/
def perimeterSamples (box : PatchBox) : List (ℤ × ℤ) :=
  [(box.aGlobalBegin - 1, box.bGlobalBegin - 1)]
  ++ (intAsc box.aGlobalBegin box.aGlobalEnd).map (fun i => (i, box.bGlobalBegin - 1))
  ++ [(box.aGlobalEnd, box.bGlobalBegin - 1)]
  ++ (intAsc box.bGlobalBegin box.bGlobalEnd).map (fun j => (box.aGlobalEnd, j))
  ++ [(box.aGlobalEnd, box.bGlobalEnd)]
  ++ (intDesc (box.aGlobalEnd - 1) box.aGlobalBegin).map (fun i => (i, box.bGlobalEnd))
  ++ [(box.aGlobalBegin - 1, box.bGlobalEnd)]
  ++ (intDesc (box.bGlobalEnd - 1) box.bGlobalBegin).map (fun j => (box.aGlobalBegin - 1, j))

/-- Modelled from the spec: GridPatch::InvalidIndex, the sentinel
returned by the coordinate-to-patch lookup for a coordinate owned by
no patch.  GridPatch.h is not among the provided source files; the
sentinel is modelled as -1, and no theorem depends on its value. -/
def InvalidIndex : ℤ := -1

/-- One call made to Connectivity::ExteriorConnect during the
consumption pass: a standalone corner relation through the
two-argument overload, an edge run, or a diagonal relation synthesized
at a run boundary inside an edge. -/
inductive ConnectCall where
  | cornerDefault (dir : Direction) (ixPatch : ℤ)
  | edgeRun (dir : Direction) (ixPatch : ℤ) (ixFirst ixSecond : ℤ)
  | cornerSynth (dir : Direction) (ixPatch : ℤ) (ixFirst ixSecond : ℤ)
deriving DecidableEq, Repr

/-- Whether a call is a standalone corner relation (the two-argument
ExteriorConnect overload used at the four box corners). -/
def ConnectCall.isCornerDefault : ConnectCall → Bool
  | ConnectCall.cornerDefault _ _ => true
  | _ => false

/-- Mutable state of the consumption pass: the running sample index ix,
the segment marker (ixFirstBegin on the bottom and right edges,
ixFirstEnd on the top and left edges), the current neighbor patch
index, and the calls issued so far. -/
structure TraversalState where
  ix : ℕ
  mark : ℤ
  cur : ℤ
  calls : List ConnectCall
deriving DecidableEq, Repr

/-- The connect calls made by one standalone corner site: one
two-argument ExteriorConnect call when the resolved patch differs from
InvalidIndex, none otherwise. -/
def cornerEmission (dir : Direction) (ixResolved : ℤ) : List ConnectCall :=
  if ixResolved ≠ InvalidIndex then
    [ConnectCall.cornerDefault dir ixResolved]
  else []

/-- Embeds a standalone corner step (Grid.cpp lines 1077-1085,
1134-1141, 1189-1196, 1244-1251): connect when the resolved patch at
the current sample differs from InvalidIndex, then advance ix. -/
def cornerStep (dir : Direction) (vecPatch : ℕ → ℤ) (s : TraversalState) :
    TraversalState :=
  { s with
    calls := s.calls ++ cornerEmission dir (vecPatch s.ix),
    ix := s.ix + 1 }

/-- Embeds the bottom-edge segment loop (Grid.cpp lines 1090-1132).
The fuel argument counts the loop iterations (i from AInteriorBegin up
to and including AInteriorEnd); the call sites pass exactly enough
fuel. -/
def bottomEdgeLoop (box : PatchBox) (vecPatch : ℕ → ℤ) :
    ℕ → ℤ → TraversalState → TraversalState
  | 0, _, s => s
  | fuel+1, i, s =>
    if i ≤ box.GetAInteriorEnd then
      let s1 :=
        if i = box.GetAInteriorEnd ∨ vecPatch s.ix ≠ s.cur then
          if i ≠ box.GetAInteriorEnd then
            { ix := s.ix, mark := i, cur := vecPatch s.ix,
              calls := s.calls ++
                [ConnectCall.edgeRun Direction.DirBottom s.cur s.mark i,
                 ConnectCall.cornerSynth Direction.DirBottomLeft s.cur i
                   box.GetBInteriorBegin,
                 ConnectCall.cornerSynth Direction.DirBottomRight (vecPatch s.ix)
                   (i - 1) box.GetBInteriorBegin] }
          else
            { s with calls := s.calls ++
                [ConnectCall.edgeRun Direction.DirBottom s.cur s.mark i] }
        else s
      let s2 := if i ≠ box.GetAInteriorEnd then { s1 with ix := s1.ix + 1 } else s1
      bottomEdgeLoop box vecPatch fuel (i + 1) s2
    else s

/-- Embeds the right-edge segment loop (Grid.cpp lines 1145-1187). -/
def rightEdgeLoop (box : PatchBox) (vecPatch : ℕ → ℤ) :
    ℕ → ℤ → TraversalState → TraversalState
  | 0, _, s => s
  | fuel+1, j, s =>
    if j ≤ box.GetBInteriorEnd then
      let s1 :=
        if j = box.GetBInteriorEnd ∨ vecPatch s.ix ≠ s.cur then
          if j ≠ box.GetBInteriorEnd then
            { ix := s.ix, mark := j, cur := vecPatch s.ix,
              calls := s.calls ++
                [ConnectCall.edgeRun Direction.DirRight s.cur s.mark j,
                 ConnectCall.cornerSynth Direction.DirBottomRight s.cur
                   (box.GetAInteriorEnd - 1) j,
                 ConnectCall.cornerSynth Direction.DirTopRight (vecPatch s.ix)
                   (box.GetAInteriorEnd - 1) (j - 1)] }
          else
            { s with calls := s.calls ++
                [ConnectCall.edgeRun Direction.DirRight s.cur s.mark j] }
        else s
      let s2 := if j ≠ box.GetBInteriorEnd then { s1 with ix := s1.ix + 1 } else s1
      rightEdgeLoop box vecPatch fuel (j + 1) s2
    else s

/-- Embeds the top-edge segment loop (Grid.cpp lines 1200-1242), which
walks i downward from AInteriorEnd - 1 to AInteriorBegin - 1 and keeps
the segment end in the marker. -/
def topEdgeLoop (box : PatchBox) (vecPatch : ℕ → ℤ) :
    ℕ → ℤ → TraversalState → TraversalState
  | 0, _, s => s
  | fuel+1, i, s =>
    if i ≥ box.GetAInteriorBegin - 1 then
      let s1 :=
        if i = box.GetAInteriorBegin - 1 ∨ vecPatch s.ix ≠ s.cur then
          if i ≠ box.GetAInteriorBegin - 1 then
            { ix := s.ix, mark := i + 1, cur := vecPatch s.ix,
              calls := s.calls ++
                [ConnectCall.edgeRun Direction.DirTop s.cur (i + 1) s.mark,
                 ConnectCall.cornerSynth Direction.DirTopRight s.cur i
                   (box.GetBInteriorEnd - 1),
                 ConnectCall.cornerSynth Direction.DirTopLeft (vecPatch s.ix)
                   (i + 1) (box.GetBInteriorEnd - 1)] }
          else
            { s with calls := s.calls ++
                [ConnectCall.edgeRun Direction.DirTop s.cur (i + 1) s.mark] }
        else s
      let s2 := if i ≠ box.GetAInteriorBegin - 1 then { s1 with ix := s1.ix + 1 } else s1
      topEdgeLoop box vecPatch fuel (i - 1) s2
    else s

/-- Embeds the left-edge segment loop (Grid.cpp lines 1255-1297), which
walks j downward from BInteriorEnd - 1 to BInteriorBegin - 1. -/
def leftEdgeLoop (box : PatchBox) (vecPatch : ℕ → ℤ) :
    ℕ → ℤ → TraversalState → TraversalState
  | 0, _, s => s
  | fuel+1, j, s =>
    if j ≥ box.GetBInteriorBegin - 1 then
      let s1 :=
        if j = box.GetBInteriorBegin - 1 ∨ vecPatch s.ix ≠ s.cur then
          if j ≠ box.GetBInteriorBegin - 1 then
            { ix := s.ix, mark := j + 1, cur := vecPatch s.ix,
              calls := s.calls ++
                [ConnectCall.edgeRun Direction.DirLeft s.cur (j + 1) s.mark,
                 ConnectCall.cornerSynth Direction.DirTopLeft s.cur
                   box.GetAInteriorBegin j,
                 ConnectCall.cornerSynth Direction.DirBottomLeft (vecPatch s.ix)
                   box.GetAInteriorBegin (j + 1)] }
          else
            { s with calls := s.calls ++
                [ConnectCall.edgeRun Direction.DirLeft s.cur (j + 1) s.mark] }
        else s
      let s2 := if j ≠ box.GetBInteriorBegin - 1 then { s1 with ix := s1.ix + 1 } else s1
      leftEdgeLoop box vecPatch fuel (j - 1) s2
    else s

/-- Embeds the consumption pass of Grid::InitializeConnectivity for one
active patch (Grid.cpp lines 1075-1302): ix is reset to zero, then the
four standalone corner steps and the four edge segment loops run in
traversal order.  vecPatch is the neighbor-patch array produced by the
panel-aware coordinate-to-patch lookup, indexed by sample position. -/
def initializeConnectivityPatch (box : PatchBox) (vecPatch : ℕ → ℤ) :
    TraversalState :=
  let s0 : TraversalState := { ix := 0, mark := 0, cur := 0, calls := [] }
  let s1 := cornerStep Direction.DirBottomLeft vecPatch s0
  let s2 := bottomEdgeLoop box vecPatch
    (box.GetAInteriorEnd + 1 - box.GetAInteriorBegin).toNat
    box.GetAInteriorBegin
    { s1 with mark := box.GetAInteriorBegin, cur := vecPatch s1.ix }
  let s3 := cornerStep Direction.DirBottomRight vecPatch s2
  let s4 := rightEdgeLoop box vecPatch
    (box.GetBInteriorEnd + 1 - box.GetBInteriorBegin).toNat
    box.GetBInteriorBegin
    { s3 with mark := box.GetBInteriorBegin, cur := vecPatch s3.ix }
  let s5 := cornerStep Direction.DirTopRight vecPatch s4
  let s6 := topEdgeLoop box vecPatch
    (box.GetAInteriorEnd + 1 - box.GetAInteriorBegin).toNat
    (box.GetAInteriorEnd - 1)
    { s5 with mark := box.GetAInteriorEnd, cur := vecPatch s5.ix }
  let s7 := cornerStep Direction.DirTopLeft vecPatch s6
  let s8 := leftEdgeLoop box vecPatch
    (box.GetBInteriorEnd + 1 - box.GetBInteriorBegin).toNat
    (box.GetBInteriorEnd - 1)
    { s7 with mark := box.GetBInteriorEnd, cur := vecPatch s7.ix }
  s8

/-! ### Grid::Checksum and GridPatch::Checksum
(Grid.cpp lines 172-234, GridPatch.cpp lines 746-918) -/

/-- The four checksum types. -/
inductive ChecksumType where
  | Sum
  | L1
  | L2
  | Linf
deriving DecidableEq, Repr

/-- The two data types accepted by Checksum; any other DataType is
fatal before any accumulation (Grid.cpp line 195). -/
inductive ChecksumDataType where
  | State
  | Tracers
deriving DecidableEq, Repr

/-- Vertical placement of one state component (the two placements the
checksum code implements). -/
inductive DataLocation where
  | Node
  | REdge
deriving DecidableEq, Repr

/-- Field data of one active patch as consumed by GridPatch::Checksum:
local interior bounds, the state data on nodes and on vertical
interfaces, the tracer data, and the element areas on nodes and
interfaces.  Values are idealized as reals. -/
structure ChkPatch where
  aInteriorBegin : ℕ
  aInteriorEnd : ℕ
  bInteriorBegin : ℕ
  bInteriorEnd : ℕ
  dataStateNode : ℕ → ℕ → ℕ → ℕ → ℝ
  dataStateREdge : ℕ → ℕ → ℕ → ℕ → ℝ
  dataTracers : ℕ → ℕ → ℕ → ℕ → ℝ
  elementArea : ℕ → ℕ → ℕ → ℝ
  elementAreaREdge : ℕ → ℕ → ℕ → ℝ

/-- A distributed grid as consumed by Grid::Checksum: the vertical
element count, the placement of each component, and the active patches
of every process. -/
structure ChkGrid where
  nRElements : ℕ
  varLocation : ℕ → DataLocation
  procs : List (List ChkPatch)

/-- Ascending natural range lo, ..., hi-1. -/
def natRange (lo hi : ℕ) : List ℕ :=
  (List.range (hi - lo)).map (fun k => lo + k)

/-- The (k, i, j) loop nest of the node-placed checksum loops: k over
the vertical levels, i and j over the patch interior. -/
def nodeTriples (nR : ℕ) (p : ChkPatch) : List (ℕ × ℕ × ℕ) :=
  (List.range nR).flatMap (fun k =>
    (natRange p.aInteriorBegin p.aInteriorEnd).flatMap (fun i =>
      (natRange p.bInteriorBegin p.bInteriorEnd).map (fun j => (k, i, j))))

/-- The (k, i, j) loop nest of the interface-placed checksum loops: k
runs over nR + 1 interfaces (k ≤ nR in the source). -/
def redgeTriples (nR : ℕ) (p : ChkPatch) : List (ℕ × ℕ × ℕ) :=
  (List.range (nR + 1)).flatMap (fun k =>
    (natRange p.aInteriorBegin p.aInteriorEnd).flatMap (fun i =>
      (natRange p.bInteriorBegin p.bInteriorEnd).map (fun j => (k, i, j))))

/-- One accumulation step of GridPatch::Checksum on one entry of the
checksum array: value times area is added for Sum, absolute value
times area for L1, squared value times area for L2; Linf keeps the
running maximum of the absolute value (no area factor). -/
noncomputable def checksumStep (ct : ChecksumType) (v a acc : ℝ) : ℝ :=
  match ct with
  | ChecksumType.Sum => acc + v * a
  | ChecksumType.L1 => acc + |v| * a
  | ChecksumType.L2 => acc + v * v * a
  | ChecksumType.Linf => if |v| > acc then |v| else acc

/-- Folds the checksum step over a serialized loop nest. -/
noncomputable def accumTriples (ct : ChecksumType) (val area : ℕ × ℕ × ℕ → ℝ)
    (triples : List (ℕ × ℕ × ℕ)) (acc : ℝ) : ℝ :=
  triples.foldl (fun a t => checksumStep ct (val t) (area t) a) acc

/-- Embeds the effect of GridPatch::Checksum on one entry c of the
checksum array.  Distinct components write distinct entries, so the
per-patch update is embedded per component: a state component placed
on nodes accumulates over the node loop nest with the node areas, a
component on interfaces over the interface loop nest with the
interface areas; tracer components always live on nodes. -/
noncomputable def patchChecksumEntry (nR : ℕ) (varLocation : ℕ → DataLocation)
    (dt : ChecksumDataType) (ct : ChecksumType) (p : ChkPatch) (c : ℕ)
    (acc : ℝ) : ℝ :=
  match dt with
  | ChecksumDataType.State =>
    match varLocation c with
    | DataLocation.Node =>
        accumTriples ct (fun t => p.dataStateNode c t.1 t.2.1 t.2.2)
          (fun t => p.elementArea t.1 t.2.1 t.2.2) (nodeTriples nR p) acc
    | DataLocation.REdge =>
        accumTriples ct (fun t => p.dataStateREdge c t.1 t.2.1 t.2.2)
          (fun t => p.elementAreaREdge t.1 t.2.1 t.2.2) (redgeTriples nR p) acc
  | ChecksumDataType.Tracers =>
      accumTriples ct (fun t => p.dataTracers c t.1 t.2.1 t.2.2)
        (fun t => p.elementArea t.1 t.2.1 t.2.2) (nodeTriples nR p) acc

/-- The local checksum of one process for entry c: the zero-initialized
entry accumulated over the patch loop of Grid::Checksum (Grid.cpp
lines 199-202). -/
noncomputable def localChecksum (g : ChkGrid) (dt : ChecksumDataType) (ct : ChecksumType)
    (patches : List ChkPatch) (c : ℕ) : ℝ :=
  patches.foldl (fun acc p => patchChecksumEntry g.nRElements g.varLocation dt ct p c acc) 0

/-- MPI_Reduce over the contributions of the participating processes:
the operator combined over the list (at least one process exists in
any MPI run; the empty case is defaulted to zero). -/
noncomputable def mpiReduce (op : ℝ → ℝ → ℝ) : List ℝ → ℝ
  | [] => 0
  | x :: xs => xs.foldl op x

/-- Embeds Grid::Checksum for entry c at the root (Grid.cpp
lines 172-234): every process accumulates its local checksum over its
active patches, the local values are reduced with MPI_MAX for Linf and
MPI_SUM otherwise, and the square root is applied to the reduced value
at the root only for the L2 checksum. -/
noncomputable def gridChecksum (g : ChkGrid) (dt : ChecksumDataType) (ct : ChecksumType)
    (c : ℕ) : ℝ :=
  let locals := g.procs.map (fun patches => localChecksum g dt ct patches c)
  let reduced :=
    match ct with
    | ChecksumType.Linf => mpiReduce max locals
    | _ => mpiReduce (fun a b => a + b) locals
  match ct with
  | ChecksumType.L2 => Real.sqrt reduced
  | _ => reduced

/-- All active patches of the grid regardless of process placement. -/
def allActivePatches (g : ChkGrid) : List ChkPatch :=
  g.procs.flatten

/-- The loop nest over which entry c of a patch accumulates. -/
def compTriples (g : ChkGrid) (dt : ChecksumDataType) (c : ℕ) (p : ChkPatch) :
    List (ℕ × ℕ × ℕ) :=
  match dt with
  | ChecksumDataType.State =>
    match g.varLocation c with
    | DataLocation.Node => nodeTriples g.nRElements p
    | DataLocation.REdge => redgeTriples g.nRElements p
  | ChecksumDataType.Tracers => nodeTriples g.nRElements p

/-- The field value feeding entry c at one loop position. -/
noncomputable def compValue (g : ChkGrid) (dt : ChecksumDataType) (c : ℕ) (p : ChkPatch)
    (t : ℕ × ℕ × ℕ) : ℝ :=
  match dt with
  | ChecksumDataType.State =>
    match g.varLocation c with
    | DataLocation.Node => p.dataStateNode c t.1 t.2.1 t.2.2
    | DataLocation.REdge => p.dataStateREdge c t.1 t.2.1 t.2.2
  | ChecksumDataType.Tracers => p.dataTracers c t.1 t.2.1 t.2.2

/-- The area weight feeding entry c at one loop position. -/
noncomputable def compArea (g : ChkGrid) (dt : ChecksumDataType) (c : ℕ) (p : ChkPatch)
    (t : ℕ × ℕ × ℕ) : ℝ :=
  match dt with
  | ChecksumDataType.State =>
    match g.varLocation c with
    | DataLocation.Node => p.elementArea t.1 t.2.1 t.2.2
    | DataLocation.REdge => p.elementAreaREdge t.1 t.2.1 t.2.2
  | ChecksumDataType.Tracers => p.elementArea t.1 t.2.1 t.2.2

/-- The checksum as the specification states it: a single global
area-weighted aggregate over every active patch of every process —
the sum of value times area for Sum, of absolute value times area for
L1; for L2 the square root, taken after the global summation, of the
sum of squared value times area; for Linf the running maximum of the
absolute values. -/
noncomputable def checksumSpec (g : ChkGrid) (dt : ChecksumDataType) (ct : ChecksumType)
    (c : ℕ) : ℝ :=
  match ct with
  | ChecksumType.Sum =>
      ((allActivePatches g).map (fun p =>
        ((compTriples g dt c p).map (fun t =>
          compValue g dt c p t * compArea g dt c p t)).sum)).sum
  | ChecksumType.L1 =>
      ((allActivePatches g).map (fun p =>
        ((compTriples g dt c p).map (fun t =>
          |compValue g dt c p t| * compArea g dt c p t)).sum)).sum
  | ChecksumType.L2 =>
      Real.sqrt (((allActivePatches g).map (fun p =>
        ((compTriples g dt c p).map (fun t =>
          compValue g dt c p t * compValue g dt c p t * compArea g dt c p t)).sum)).sum)
  | ChecksumType.Linf =>
      (((allActivePatches g).flatMap (fun p =>
        (compTriples g dt c p).map (fun t => |compValue g dt c p t|)))).foldl max 0

/-! ### Concrete instances used to exercise the definitions -/

/-- A small concrete box: halo width 1, interior widths 2 and 2. -/
def sampleBox : PatchBox :=
  { panel := 0, haloElements := 1,
    aGlobalBegin := 0, aGlobalEnd := 2, bGlobalBegin := 0, bGlobalEnd := 2 }

/-- A resolver answer that maps every boundary sample to patch 7. -/
def constPatch7 : ℕ → ℤ := fun _ => 7

/-- A one-patch consolidation grid: 5 components, no tracers, 2
vertical elements; the single patch has 16 total nodes. -/
def consGrid1 : ConsGrid :=
  { nComponents := 5, nTracers := 0, nRElements := 2, patchBoxes := [sampleBox] }

/-- A status still waiting for the state data of patch 0. -/
def consStatus0 : ConsolidationStatus :=
  { expected := [(0, DataType.State)], received := [] }

/-- A status with nothing outstanding: Done() holds. -/
def consStatusDone : ConsolidationStatus :=
  { expected := [], received := [] }

/-- A topography message whose element count matches no geometric size
of the patch. -/
def consMsgTopo : ConsMsg :=
  { ixPatch := 0, eDataType := DataType.Topography, nRecvCount := 999 }

/-- A state message with a decoded patch index outside the valid
range. -/
def consMsgOutOfRange : ConsMsg :=
  { ixPatch := 5, eDataType := DataType.State, nRecvCount := 160 }

/-- A state message with an element count different from the expected
5 * 2 * 16 = 160. -/
def consMsgStateBadCount : ConsMsg :=
  { ixPatch := 0, eDataType := DataType.State, nRecvCount := 123 }

/-- A fixed topology answer used to exercise ExteriorConnect. -/
def trivialOpposing : ℤ → ℤ → Direction → OpposingInfo :=
  fun _ _ _ =>
    { dirOpposing := Direction.DirBottomLeft,
      fReverseDirection := false, fFlippedCoordinate := false }

/-! ## Theorems -/

/-- C7: the claim states that every data-slot operation — CopyData,
LinearCombineData, ZeroData, AddReferenceState and the Send/Receive
phases for State and Tracers — fatally rejects a slot index that is
negative or not strictly below the allocated slot count.  The five
slot operations do reject index = slot count, but the Send and Receive
guards compare with strict greater-than, so the out-of-range index
equal to the slot count passes validation and the subsequent vector
access m_datavecStateNode[iDataIndex] reads past the end.  Evaluated
here at one allocated slot and slot index 1: the index is not
strictly below the slot count, every slot operation raises, and the
Send/Receive guards do not. -/
theorem C7_send_receive_slot_guard_gap :
    ¬ ((1 : ℤ) < 1) ∧
    copyDataSlotRaises 1 1 ∧
    linearCombineSlotRaises 1 1 ∧
    zeroDataSlotRaises 1 1 ∧
    addReferenceStateSlotRaises 1 1 ∧
    ¬ sendStateSlotRaises 1 1 ∧
    ¬ sendTracersSlotRaises 1 1 ∧
    ¬ receiveStateSlotRaises 1 1 := by
  refine ⟨by decide, ?_, ?_, ?_, ?_, ?_, ?_, ?_⟩ <;> decide

/-- C8 counterexample: Grid::Checksum called with tracer data while
the model holds zero tracers returns silently (Grid.cpp lines
188-192), refuting the claim that every tracer operation with zero
tracers is a fatal error. -/
theorem C8_checksum_zero_tracers_silent :
    gridChecksumEntryBranch DataType.Tracers 0 = TracerOpOutcome.silentReturn ∧
    gridChecksumEntryBranch DataType.Tracers 0 ≠ TracerOpOutcome.fatalError := by
  decide

/-- C8 amended: ConsolidateDataToRoot with tracer data requested and a
zero tracer count is a fatal error, exactly when both conditions hold;
Grid::Checksum with tracer data and a zero tracer count instead
returns silently, without computing and without raising. -/
theorem C8_zero_tracer_guards :
    (∀ (fContainsTracers : Bool) (nTracers : ℤ),
      consolidateToRootTracerBranch fContainsTracers nTracers =
          TracerOpOutcome.fatalError ↔
        fContainsTracers = true ∧ nTracers = 0) ∧
    (∀ nTracers : ℤ,
      gridChecksumEntryBranch DataType.Tracers nTracers =
          TracerOpOutcome.silentReturn ↔ nTracers = 0) := by
  constructor
  · intro b n
    unfold consolidateToRootTracerBranch
    split
    · simp_all
    · simp_all
  · intro n
    show (if n = 0 then TracerOpOutcome.silentReturn else TracerOpOutcome.proceeds) =
        TracerOpOutcome.silentReturn ↔ n = 0
    split_ifs with h <;> simp_all

/-- Entry i of the distribution list is the per-patch branch applied
to i. -/
theorem distributePatches_getD (nPatches nSize nRank i : ℕ) (d : PatchInit)
    (hi : i < nPatches) :
    (distributePatches nPatches nSize nRank).getD i d = patchInitAction nSize nRank i := by
  unfold distributePatches
  have hlen : i < ((List.range nPatches).map (patchInitAction nSize nRank)).length := by
    simpa using hi
  rw [List.getD_eq_getElem _ _ hlen, List.getElem_map]
  simp [List.getElem_range]

/-- Adding one patch adds it to the active list of its owner only. -/
theorem processLoad_succ (nPatches nSize nRank : ℕ) :
    processLoad (nPatches + 1) nSize nRank =
      processLoad nPatches nSize nRank +
        if nPatches % nSize = nRank then 1 else 0 := by
  unfold processLoad activeGridPatches
  rw [List.range_succ, List.filter_append, List.length_append, List.filter_singleton]
  split_ifs with h
  · simp_all
  · simp_all

/-- Closed form of the load of one process under round-robin
distribution: every process holds at least nPatches / nSize patches,
and the first nPatches % nSize ranks hold one more. -/
theorem processLoad_closed (nPatches nSize nRank : ℕ) (hP : 0 < nSize)
    (hr : nRank < nSize) :
    processLoad nPatches nSize nRank =
      nPatches / nSize + if nRank < nPatches % nSize then 1 else 0 := by
  induction nPatches with
  | zero => simp [processLoad, activeGridPatches]
  | succ n ih =>
    rw [processLoad_succ, ih]
    have h1 : nSize * (n / nSize) + n % nSize = n := Nat.div_add_mod n nSize
    have hmodlt : n % nSize < nSize := Nat.mod_lt _ hP
    rcases Nat.lt_or_ge (n % nSize + 1) nSize with h | h
    · have e1 : n + 1 = (n % nSize + 1) + nSize * (n / nSize) := by omega
      have hdiv : (n + 1) / nSize = n / nSize := by
        rw [e1, Nat.add_mul_div_left _ _ hP, Nat.div_eq_of_lt h, Nat.zero_add]
      have hmod2 : (n + 1) % nSize = n % nSize + 1 := by
        rw [e1, Nat.add_mul_mod_self_left, Nat.mod_eq_of_lt h]
      rw [hdiv, hmod2]
      split_ifs <;> omega
    · have e1 : n + 1 = nSize * (n / nSize + 1) := by
        rw [Nat.mul_add, Nat.mul_one]; omega
      have hdiv : (n + 1) / nSize = n / nSize + 1 := by
        rw [e1, Nat.mul_div_cancel_left _ hP]
      have hmod2 : (n + 1) % nSize = 0 := by
        rw [e1, Nat.mul_mod_right]
      rw [hdiv, hmod2]
      split_ifs <;> omega

/-- C2: with nSize processes, DistributePatches assigns patch i to
process i % nSize: the owner runs InitializeDataLocal, every other
rank retains a stub recording the owner i % nSize, exactly one rank
below nSize owns the patch, the owner is the only rank whose active
list holds the patch, and the loads of any two ranks differ by at most
one patch. -/
theorem C2_distributePatches_round_robin (nPatches nSize i : ℕ)
    (hP : 0 < nSize) (hi : i < nPatches) :
    (∀ d, (distributePatches nPatches nSize (i % nSize)).getD i d =
        PatchInit.dataLocal) ∧
    (∀ nRank d, nRank ≠ i % nSize →
        (distributePatches nPatches nSize nRank).getD i d =
          PatchInit.dataRemote (i % nSize)) ∧
    (∃! nRank, nRank < nSize ∧
        (distributePatches nPatches nSize nRank).getD i (PatchInit.dataRemote 0) =
          PatchInit.dataLocal) ∧
    (∀ nRank, i ∈ activeGridPatches nPatches nSize nRank ↔ nRank = i % nSize) ∧
    (∀ r1 r2, r1 < nSize → r2 < nSize →
        processLoad nPatches nSize r1 ≤ processLoad nPatches nSize r2 + 1) := by
  refine ⟨?_, ?_, ?_, ?_, ?_⟩
  · intro d
    rw [distributePatches_getD _ _ _ _ _ hi]
    simp [patchInitAction]
  · intro nRank d hne
    rw [distributePatches_getD _ _ _ _ _ hi]
    simp [patchInitAction]
    intro heq
    exact absurd heq.symm hne
  · refine ⟨i % nSize, ⟨Nat.mod_lt _ hP, ?_⟩, ?_⟩
    · rw [distributePatches_getD _ _ _ _ _ hi]
      simp [patchInitAction]
    · intro r hyp
      rcases hyp with ⟨hrlt, hloc⟩
      by_contra hne
      rw [distributePatches_getD _ _ _ _ _ hi] at hloc
      unfold patchInitAction at hloc
      rw [if_neg (fun heq => hne heq.symm)] at hloc
      exact PatchInit.noConfusion hloc
  · intro nRank
    unfold activeGridPatches
    simp [hi, eq_comm]
  · intro r1 r2 h1 h2
    rw [processLoad_closed _ _ _ hP h1, processLoad_closed _ _ _ hP h2]
    split_ifs <;> omega

/-- C2 witness: 6 patches over 4 processes; patch 2 is active on its
owner rank 2, patch 2 is owned by exactly rank 2, and the loads of
ranks 0 and 3 differ by at most one. -/
theorem C2_distributePatches_round_robin_witness :
    (distributePatches 6 4 2).getD 2 PatchInit.dataLocal = PatchInit.dataLocal ∧
    (distributePatches 6 4 1).getD 2 PatchInit.dataLocal =
      PatchInit.dataRemote 2 ∧
    processLoad 6 4 0 ≤ processLoad 6 4 3 + 1 :=
  ⟨(C2_distributePatches_round_robin 6 4 2 (by decide) (by decide)).1 _,
   (C2_distributePatches_round_robin 6 4 2 (by decide) (by decide)).2.1 1 _ (by decide),
   (C2_distributePatches_round_robin 6 4 2 (by decide) (by decide)).2.2.2.2 0 3
     (by decide) (by decide)⟩

/-- Folding one more AddPatch call. -/
theorem buildGrid_concat (l : List ℕ) (c : ℕ) :
    buildGrid (l ++ [c]) = addPatch (buildGrid l) c := by
  unfold buildGrid
  rw [List.foldl_append]
  rfl

/-- After any AddPatch sequence the stamped indices are the positions
in the patch vector and the node counts are the requested ones. -/
theorem buildGrid_patches_spec (counts : List ℕ) :
    (buildGrid counts).vecGridPatches.map GPatch.ixPatch = List.range counts.length ∧
    (buildGrid counts).vecGridPatches.map GPatch.totalNodeCount = counts := by
  induction counts using List.reverseRecOn with
  | nil => constructor <;> rfl
  | append_singleton l c ih =>
    rcases ih with ⟨h1, h2⟩
    have hlen : (buildGrid l).vecGridPatches.length = l.length := by
      have := congrArg List.length h2
      simpa using this
    rw [buildGrid_concat]
    unfold addPatch
    constructor
    · simp only [List.map_append, h1, List.map_cons, List.map_nil, hlen,
        List.length_append, List.length_singleton, List.range_succ]
    · simp only [List.map_append, h2, List.map_cons, List.map_nil]

/-- The patch vector grows by one per AddPatch call. -/
theorem buildGrid_patches_length (counts : List ℕ) :
    (buildGrid counts).vecGridPatches.length = counts.length := by
  have := congrArg List.length (buildGrid_patches_spec counts).2
  simpa using this

/-- Length of the cumulative array model. -/
theorem cumulList_length (counts : List ℕ) :
    (cumulList counts).length = counts.length + 1 := by
  simp [cumulList]

/-- Entry k of the cumulative array model is the node-count sum of the
first k patches. -/
theorem cumulList_getD (counts : List ℕ) (k : ℕ) (hk : k ≤ counts.length) :
    (cumulList counts).getD k 0 = (counts.take k).sum := by
  unfold cumulList
  have hlen : k <
      ((List.range (counts.length + 1)).map fun k => (counts.take k).sum).length := by
    simp
    omega
  rw [List.getD_eq_getElem _ _ hlen, List.getElem_map]
  simp [List.getElem_range]

/-- Appending one count extends the cumulative array model by one
entry holding the full sum. -/
theorem cumulList_concat (l : List ℕ) (c : ℕ) :
    cumulList (l ++ [c]) = cumulList l ++ [l.sum + c] := by
  unfold cumulList
  rw [List.length_append, List.length_singleton, List.range_succ, List.map_append]
  congr 1
  · apply List.map_congr_left
    intro k hk
    rw [List.mem_range] at hk
    rw [List.take_append_of_le_length (by omega)]
  · have ht : (l ++ [c]).take (l.length + 1) = l ++ [c] := by
      apply List.take_of_length_le
      simp
    simp [ht]

/-- The head of the cumulative array model is zero. -/
theorem cumulList_head (counts : List ℕ) :
    (cumulList counts).head? = some 0 := by
  unfold cumulList
  rw [List.range_succ_eq_map]
  simp

/-- The last entry of the cumulative array model is the total node
count. -/
theorem cumulList_getLast (counts : List ℕ) :
    (cumulList counts).getLast? = some counts.sum := by
  unfold cumulList
  rw [List.range_succ, List.map_append]
  simp [List.take_length]

/-- After a nonempty AddPatch sequence the cumulative array is exactly
the prefix-sum array of the node counts. -/
theorem buildGrid_cumul (counts : List ℕ) (h : counts ≠ []) :
    (buildGrid counts).vecCumulativePatch2DNodeIndex = cumulList counts := by
  induction counts using List.reverseRecOn with
  | nil => cases h rfl
  | append_singleton l c ih =>
    rw [buildGrid_concat]
    unfold addPatch
    rcases eq_or_ne l [] with hl | hl
    · subst hl
      show (if (0 : ℕ) = 0 then ([] : List ℕ) ++ [0] else []) ++ _ = _
      simp [cumulList, List.range_succ, buildGrid, emptyGridPatchState]
    · have hcum := ih hl
      have hlen := buildGrid_patches_length l
      have hlne : l.length ≠ 0 := by
        intro h0
        exact hl (List.length_eq_zero.mp h0)
      simp only [hlen, if_neg hlne, hcum]
      rw [cumulList_concat]
      congr 2
      rw [cumulList_getD l l.length le_rfl, List.take_length]

/-- Field ixPatch of the k-th registered patch. -/
theorem buildGrid_patch_ix (counts : List ℕ) (k : ℕ) (d : GPatch)
    (hk : k < counts.length) :
    ((buildGrid counts).vecGridPatches.getD k d).ixPatch = k := by
  have h1 := (buildGrid_patches_spec counts).1
  have h := congrArg (fun l => l[k]?) h1
  simp only [List.getElem?_map] at h
  rw [List.getElem?_range (by simpa using hk)] at h
  rw [List.getD_eq_getD_get?, List.get?_eq_getElem?]
  cases hp : (buildGrid counts).vecGridPatches[k]? with
  | none => rw [hp] at h; simp at h
  | some p =>
    rw [hp] at h
    simp at h
    simpa using h

/-- Field totalNodeCount of the k-th registered patch. -/
theorem buildGrid_patch_nodeCount (counts : List ℕ) (k : ℕ) (d : GPatch)
    (hk : k < counts.length) :
    ((buildGrid counts).vecGridPatches.getD k d).totalNodeCount = counts.getD k 0 := by
  have h2 := (buildGrid_patches_spec counts).2
  have h := congrArg (fun l => l[k]?) h2
  simp only [List.getElem?_map] at h
  rw [List.getD_eq_getD_get?, List.getD_eq_getD_get?, List.get?_eq_getElem?,
    List.get?_eq_getElem?]
  cases hp : (buildGrid counts).vecGridPatches[k]? with
  | none =>
    have hlen := buildGrid_patches_length counts
    have := List.getElem?_eq_none_iff.mp hp
    omega
  | some p =>
    rw [hp] at h
    simp at h
    rw [← h]
    rfl

/-- C10: after any nonempty sequence of AddPatch calls starting from
the empty grid, the k-th added patch carries patch index k, the
cumulative 2D node-index array has length patch count + 1, starts at
0, grows at position k by exactly the node count of patch k (hence is
monotonically non-decreasing), and its last entry is the total node
count of the grid. -/
theorem C10_addPatch_cumulative_invariant (c : ℕ) (rest : List ℕ) :
    (∀ k d, k < (buildGrid (c :: rest)).vecGridPatches.length →
      ((buildGrid (c :: rest)).vecGridPatches.getD k d).ixPatch = k) ∧
    (buildGrid (c :: rest)).vecCumulativePatch2DNodeIndex.length =
      (buildGrid (c :: rest)).vecGridPatches.length + 1 ∧
    (buildGrid (c :: rest)).vecCumulativePatch2DNodeIndex.head? = some 0 ∧
    (∀ k d, k < (buildGrid (c :: rest)).vecGridPatches.length →
      (buildGrid (c :: rest)).vecCumulativePatch2DNodeIndex.getD (k + 1) 0 =
        (buildGrid (c :: rest)).vecCumulativePatch2DNodeIndex.getD k 0 +
          ((buildGrid (c :: rest)).vecGridPatches.getD k d).totalNodeCount) ∧
    (∀ k, k < (buildGrid (c :: rest)).vecGridPatches.length →
      (buildGrid (c :: rest)).vecCumulativePatch2DNodeIndex.getD k 0 ≤
        (buildGrid (c :: rest)).vecCumulativePatch2DNodeIndex.getD (k + 1) 0) ∧
    (buildGrid (c :: rest)).vecCumulativePatch2DNodeIndex.getLast? =
      some (buildGrid (c :: rest)).GetTotalNodeCount := by
  have hne : (c :: rest) ≠ [] := List.cons_ne_nil c rest
  have hcum := buildGrid_cumul (c :: rest) hne
  have hplen := buildGrid_patches_length (c :: rest)
  have hstep : ∀ k d, k < (buildGrid (c :: rest)).vecGridPatches.length →
      (buildGrid (c :: rest)).vecCumulativePatch2DNodeIndex.getD (k + 1) 0 =
        (buildGrid (c :: rest)).vecCumulativePatch2DNodeIndex.getD k 0 +
          ((buildGrid (c :: rest)).vecGridPatches.getD k d).totalNodeCount := by
    intro k d hk
    rw [hplen] at hk
    rw [hcum, cumulList_getD _ _ (by omega), cumulList_getD _ _ (by omega)]
    rw [buildGrid_patch_nodeCount _ _ _ hk]
    rw [List.sum_take_succ _ _ hk]
    congr 1
    rw [List.getD_eq_getElem _ _ hk]
  refine ⟨?_, ?_, ?_, hstep, ?_, ?_⟩
  · intro k d hk
    rw [hplen] at hk
    exact buildGrid_patch_ix _ _ _ hk
  · rw [hcum, cumulList_length, hplen]
  · rw [hcum]
    exact cumulList_head _
  · intro k hk
    rw [hstep k { ixPatch := 0, totalNodeCount := 0 } hk]
    exact Nat.le_add_right _ _
  · rw [hcum, cumulList_getLast]
    congr 1
    unfold GridPatchState.GetTotalNodeCount
    rw [(buildGrid_patches_spec (c :: rest)).2]

/-- C10 witness: three AddPatch calls with node counts 4, 7, 5; the
second patch carries index 1, the cumulative array is one entry longer
than the patch vector, starts at 0, grows by 7 at position 1, and
ends at the total node count. -/
theorem C10_addPatch_cumulative_invariant_witness :
    ((buildGrid [4, 7, 5]).vecGridPatches.getD 1
        { ixPatch := 0, totalNodeCount := 0 }).ixPatch = 1 ∧
    (buildGrid [4, 7, 5]).vecCumulativePatch2DNodeIndex.getD 2 0 =
      (buildGrid [4, 7, 5]).vecCumulativePatch2DNodeIndex.getD 1 0 +
        ((buildGrid [4, 7, 5]).vecGridPatches.getD 1
          { ixPatch := 0, totalNodeCount := 0 }).totalNodeCount ∧
    (buildGrid [4, 7, 5]).vecCumulativePatch2DNodeIndex.getLast? =
      some (buildGrid [4, 7, 5]).GetTotalNodeCount :=
  ⟨(C10_addPatch_cumulative_invariant 4 [7, 5]).1 1 _ (by decide),
   (C10_addPatch_cumulative_invariant 4 [7, 5]).2.2.2.1 1 _ (by decide),
   (C10_addPatch_cumulative_invariant 4 [7, 5]).2.2.2.2.2⟩

/-- C6: for a diagonal (corner) exterior connection with a non-NULL
second patch, ExteriorConnect raises the fatal insufficient-interior
configuration error exactly when the patch lacks haloWidth contiguous
interior elements on one of the two sides of the corner position; the
error return means no neighbor is constructed or added. -/
theorem C6_exteriorConnect_diagonal_guard
    (opposing : ℤ → ℤ → Direction → OpposingInfo) (boxFirst : PatchBox)
    (nHaloElements : ℤ) (ixPatchSecond : ℤ) (boxSecond : PatchBox)
    (dirFirst : Direction) (ixFirst ixSecond : ℤ)
    (hc : dirFirst.isCorner = true) :
    exteriorConnect opposing boxFirst nHaloElements (some (ixPatchSecond, boxSecond))
        dirFirst ixFirst ixSecond =
      Except.error ConnectError.insufficientInterior ↔
    specDiagonalInsufficient boxFirst nHaloElements dirFirst ixFirst ixSecond := by
  cases dirFirst <;> simp only [Direction.isCorner] at hc <;> try exact absurd hc (by decide)
  all_goals
    simp only [exteriorConnect, Direction.isEdge, specDiagonalInsufficient,
      PatchBox.GetAInteriorBegin, PatchBox.GetAInteriorEnd,
      PatchBox.GetBInteriorBegin, PatchBox.GetBInteriorEnd,
      PatchBox.GetAInteriorWidth, PatchBox.GetBInteriorWidth, if_false,
      Bool.false_eq_true, reduceCtorEq, false_and, and_false, if_true, true_and]
  all_goals
    split_ifs with h <;> simp_all <;> omega

/-- C6 witness: halo width 3 on a box with interior widths 2: the
top-right corner position has only 2 contiguous interior elements on
each side, the insufficiency condition holds, and the connect call
fails with the insufficient-interior error. -/
theorem C6_exteriorConnect_diagonal_guard_witness :
    specDiagonalInsufficient sampleBox 3 Direction.DirTopRight 2 2 ∧
    exteriorConnect trivialOpposing sampleBox 3 (some (1, sampleBox))
        Direction.DirTopRight 2 2 =
      Except.error ConnectError.insufficientInterior :=
  ⟨by decide,
   (C6_exteriorConnect_diagonal_guard trivialOpposing sampleBox 3 1 sampleBox
     Direction.DirTopRight 2 2 (by decide)).mpr (by decide)⟩

/-- C9: calling ConsolidateDataAtRoot at the root with a status that
already reports Done() raises the fatal after-completion error before
any message is received (queue and status are untouched); a received
message whose decoded patch index lies outside the valid range raises
the fatal out-of-range error with the status unchanged, so the
(patch, dataType) pair is never recorded. -/
theorem C9_consolidate_status_protection (g : ConsGrid)
    (st : ConsolidationStatus) (queue : List ConsMsg) :
    (st.Done = true →
      consolidateDataAtRoot g 0 st queue =
        { err := some ConsError.consolidateAfterDone, status := st, queue := queue }) ∧
    (∀ msg rest, st.Done = false →
      (msg.ixPatch < 0 ∨ msg.ixPatch ≥ (g.patchBoxes.length : ℤ)) →
      consolidateDataAtRoot g 0 st (msg :: rest) =
        { err := some ConsError.patchIndexOutOfRange, status := st, queue := rest }) := by
  constructor
  · intro hdone
    simp [consolidateDataAtRoot, hdone]
  · intro msg rest hdone hrange
    simp [consolidateDataAtRoot, hdone, hrange]

/-- C9 witness: with nothing outstanding Done() holds and the call
fails before receiving, leaving the queue untouched; with an
out-of-range patch index the call fails with the status unchanged. -/
theorem C9_consolidate_status_protection_witness :
    consolidateDataAtRoot consGrid1 0 consStatusDone [consMsgTopo] =
      { err := some ConsError.consolidateAfterDone, status := consStatusDone,
        queue := [consMsgTopo] } ∧
    consolidateDataAtRoot consGrid1 0 consStatus0 [consMsgOutOfRange] =
      { err := some ConsError.patchIndexOutOfRange, status := consStatus0,
        queue := [] } :=
  ⟨(C9_consolidate_status_protection consGrid1 consStatusDone [consMsgTopo]).1
      (by decide),
   (C9_consolidate_status_protection consGrid1 consStatus0 []).2
      consMsgOutOfRange [] (by decide) (by decide)⟩

/-- C4 counterexample: a topography message whose element count (999)
matches no size derivable from the patch geometry (total nodes 16,
vertical elements 2) is accepted without any fatal error: the source
validates the received element count only for State, Tracers and
Jacobian data and carries a pragma noting the missing checks for the
other data types. -/
theorem C4_topography_count_unchecked :
    (consolidateDataAtRoot consGrid1 0 consStatus0 [consMsgTopo]).err = none ∧
    consMsgTopo.nRecvCount ≠ sampleBox.GetTotalNodes ∧
    consMsgTopo.nRecvCount ≠ consGrid1.nRElements * sampleBox.GetTotalNodes := by
  decide

/-- C4 amended: after tag decoding and patch-index validation, the
received element count is compared against the count expected from the
patch geometry and the model counts for State, Tracers and Jacobian
data — any mismatch there is a fatal protocol error — while
Topography, Longitude, Latitude and Z messages are recorded without
any element-count validation. -/
theorem C4_count_validation (g : ConsGrid) (st : ConsolidationStatus)
    (msg : ConsMsg) (rest : List ConsMsg) (hdone : st.Done = false)
    (hlo : 0 ≤ msg.ixPatch) (hhi : msg.ixPatch < (g.patchBoxes.length : ℤ)) :
    (msg.eDataType = DataType.State →
      (consolidateDataAtRoot g 0 st (msg :: rest)).err =
        if g.nComponents * g.nRElements *
            (g.patchBoxes.getD msg.ixPatch.toNat defaultPatchBox).GetTotalNodes ≠
            msg.nRecvCount
        then some ConsError.stateDimensionMismatch else none) ∧
    (msg.eDataType = DataType.Tracers →
      (consolidateDataAtRoot g 0 st (msg :: rest)).err =
        if g.nTracers * g.nRElements *
            (g.patchBoxes.getD msg.ixPatch.toNat defaultPatchBox).GetTotalNodes ≠
            msg.nRecvCount
        then some ConsError.tracersDimensionMismatch else none) ∧
    (msg.eDataType = DataType.Jacobian →
      (consolidateDataAtRoot g 0 st (msg :: rest)).err =
        if g.nRElements *
            (g.patchBoxes.getD msg.ixPatch.toNat defaultPatchBox).GetTotalNodes ≠
            msg.nRecvCount
        then some ConsError.jacobianDimensionMismatch else none) ∧
    (msg.eDataType = DataType.Topography ∨ msg.eDataType = DataType.Longitude ∨
        msg.eDataType = DataType.Latitude ∨ msg.eDataType = DataType.Z →
      (consolidateDataAtRoot g 0 st (msg :: rest)).err = none) := by
  have hrange : ¬ (msg.ixPatch < 0 ∨ msg.ixPatch ≥ (g.patchBoxes.length : ℤ)) := by
    omega
  rcases msg with ⟨ip, dt, cnt⟩
  cases dt <;>
    refine ⟨?_, ?_, ?_, ?_⟩ <;>
    intro hdt <;>
    first
      | exact absurd hdt (by decide)
      | (simp [consolidateDataAtRoot, hdone, hrange]
         try (split_ifs <;> simp_all))

/-- C4 amended witness: a state message for patch 0 with element count
123 instead of the expected 5 * 2 * 16 = 160 raises the state
dimension-mismatch protocol error. -/
theorem C4_count_validation_witness :
    (consolidateDataAtRoot consGrid1 0 consStatus0 [consMsgStateBadCount]).err =
      some ConsError.stateDimensionMismatch := by
  have h := (C4_count_validation consGrid1 consStatus0 consMsgStateBadCount []
    (by decide) (by decide) (by decide)).1 rfl
  rw [h, if_pos (by decide)]

/-- The generation pass emits interior perimeter + 4 samples. -/
theorem perimeterSamples_length (box : PatchBox)
    (hA : 0 ≤ box.GetAInteriorWidth) (hB : 0 ≤ box.GetBInteriorWidth) :
    ((perimeterSamples box).length : ℤ) = box.GetInteriorPerimeter + 4 := by
  unfold perimeterSamples intAsc intDesc PatchBox.GetInteriorPerimeter
  unfold PatchBox.GetAInteriorWidth PatchBox.GetBInteriorWidth at *
  simp only [List.length_append, List.length_map, List.length_range,
    List.length_singleton]
  push_cast
  omega

/-- The bottom-edge loop advances ix once per interior column. -/
theorem bottomEdgeLoop_ix (box : PatchBox) (vp : ℕ → ℤ) :
    ∀ (fuel : ℕ) (i : ℤ) (s : TraversalState),
      (fuel : ℤ) = box.GetAInteriorEnd + 1 - i →
      (((bottomEdgeLoop box vp fuel i s).ix : ℤ) : ℤ) =
        (s.ix : ℤ) + (box.GetAInteriorEnd - i).toNat := by
  intro fuel
  induction fuel with
  | zero =>
    intro i s hfe
    simp only [bottomEdgeLoop]
    omega
  | succ n ih =>
    intro i s hfe
    have hle : i ≤ box.GetAInteriorEnd := by omega
    simp only [bottomEdgeLoop, if_pos hle]
    split_ifs with h1 h2 h3
    · rw [ih _ _ (by omega)]
      try dsimp only
      omega
    · rw [ih _ _ (by omega)]
      try dsimp only
      omega
    · rw [ih _ _ (by omega)]
      try dsimp only
      omega
    · rw [ih _ _ (by omega)]
      try dsimp only
      omega

/-- The right-edge loop advances ix once per interior row. -/
theorem rightEdgeLoop_ix (box : PatchBox) (vp : ℕ → ℤ) :
    ∀ (fuel : ℕ) (j : ℤ) (s : TraversalState),
      (fuel : ℤ) = box.GetBInteriorEnd + 1 - j →
      ((rightEdgeLoop box vp fuel j s).ix : ℤ) =
        (s.ix : ℤ) + (box.GetBInteriorEnd - j).toNat := by
  intro fuel
  induction fuel with
  | zero =>
    intro j s hfe
    simp only [rightEdgeLoop]
    omega
  | succ n ih =>
    intro j s hfe
    have hle : j ≤ box.GetBInteriorEnd := by omega
    simp only [rightEdgeLoop, if_pos hle]
    split_ifs with h1 h2 h3
    · rw [ih _ _ (by omega)]
      try dsimp only
      omega
    · rw [ih _ _ (by omega)]
      try dsimp only
      omega
    · rw [ih _ _ (by omega)]
      try dsimp only
      omega
    · rw [ih _ _ (by omega)]
      try dsimp only
      omega

/-- The top-edge loop advances ix once per interior column. -/
theorem topEdgeLoop_ix (box : PatchBox) (vp : ℕ → ℤ) :
    ∀ (fuel : ℕ) (i : ℤ) (s : TraversalState),
      (fuel : ℤ) = i + 2 - box.GetAInteriorBegin →
      ((topEdgeLoop box vp fuel i s).ix : ℤ) =
        (s.ix : ℤ) + (i + 1 - box.GetAInteriorBegin).toNat := by
  intro fuel
  induction fuel with
  | zero =>
    intro i s hfe
    simp only [topEdgeLoop]
    omega
  | succ n ih =>
    intro i s hfe
    have hle : i ≥ box.GetAInteriorBegin - 1 := by omega
    simp only [topEdgeLoop, if_pos hle]
    split_ifs with h1 h2 h3
    · rw [ih _ _ (by omega)]
      try dsimp only
      omega
    · rw [ih _ _ (by omega)]
      try dsimp only
      omega
    · rw [ih _ _ (by omega)]
      try dsimp only
      omega
    · rw [ih _ _ (by omega)]
      try dsimp only
      omega

/-- The left-edge loop advances ix once per interior row. -/
theorem leftEdgeLoop_ix (box : PatchBox) (vp : ℕ → ℤ) :
    ∀ (fuel : ℕ) (j : ℤ) (s : TraversalState),
      (fuel : ℤ) = j + 2 - box.GetBInteriorBegin →
      ((leftEdgeLoop box vp fuel j s).ix : ℤ) =
        (s.ix : ℤ) + (j + 1 - box.GetBInteriorBegin).toNat := by
  intro fuel
  induction fuel with
  | zero =>
    intro j s hfe
    simp only [leftEdgeLoop]
    omega
  | succ n ih =>
    intro j s hfe
    have hle : j ≥ box.GetBInteriorBegin - 1 := by omega
    simp only [leftEdgeLoop, if_pos hle]
    split_ifs with h1 h2 h3
    · rw [ih _ _ (by omega)]
      try dsimp only
      omega
    · rw [ih _ _ (by omega)]
      try dsimp only
      omega
    · rw [ih _ _ (by omega)]
      try dsimp only
      omega
    · rw [ih _ _ (by omega)]
      try dsimp only
      omega

/-- C1: on a well-formed PatchBox (positive interior widths), the
boundary traversal of Grid::InitializeConnectivity generates exactly
interior perimeter + 4 samples, and the consumption pass ends with its
running index equal to interior perimeter + 4 for every resolver
answer — so neither of the two Index mismatch fatal checks can
fire. -/
theorem C1_traversal_sample_counts (box : PatchBox) (vp : ℕ → ℤ)
    (hA : 0 < box.GetAInteriorWidth) (hB : 0 < box.GetBInteriorWidth) :
    ((perimeterSamples box).length : ℤ) = box.GetInteriorPerimeter + 4 ∧
    ((initializeConnectivityPatch box vp).ix : ℤ) =
      box.GetInteriorPerimeter + 4 := by
  have hAB : box.GetAInteriorEnd - box.GetAInteriorBegin = box.GetAInteriorWidth := by
    unfold PatchBox.GetAInteriorEnd PatchBox.GetAInteriorBegin
    omega
  have hBB : box.GetBInteriorEnd - box.GetBInteriorBegin = box.GetBInteriorWidth := by
    unfold PatchBox.GetBInteriorEnd PatchBox.GetBInteriorBegin
    omega
  refine ⟨perimeterSamples_length box (by omega) (by omega), ?_⟩
  unfold initializeConnectivityPatch
  rw [leftEdgeLoop_ix box vp _ _ _ (by omega)]
  simp only [cornerStep]
  push_cast
  rw [topEdgeLoop_ix box vp _ _ _ (by omega)]
  push_cast
  rw [rightEdgeLoop_ix box vp _ _ _ (by omega)]
  push_cast
  rw [bottomEdgeLoop_ix box vp _ _ _ (by omega)]
  simp only [PatchBox.GetInteriorPerimeter]
  push_cast
  omega

/-- C1 witness: on the sample box (interior widths 2 and 2, perimeter
8) with the constant resolver, both passes count 12 = 8 + 4. -/
theorem C1_traversal_sample_counts_witness :
    ((perimeterSamples sampleBox).length : ℤ) = 12 ∧
    ((initializeConnectivityPatch sampleBox constPatch7).ix : ℤ) = 12 := by
  have h := C1_traversal_sample_counts sampleBox constPatch7 (by decide) (by decide)
  have hp : sampleBox.GetInteriorPerimeter + 4 = 12 := by decide
  exact ⟨by rw [h.1, hp], by rw [h.2, hp]⟩

/-- Membership of a standalone corner call in one corner emission. -/
theorem cornerDefault_mem_cornerEmission (dir d2 : Direction) (p v : ℤ) :
    ConnectCall.cornerDefault dir p ∈ cornerEmission d2 v ↔
      (v ≠ InvalidIndex ∧ dir = d2 ∧ p = v) := by
  unfold cornerEmission
  split_ifs with h <;> simp_all

/-- Calls of a standalone corner step. -/
theorem cornerStep_calls (dir : Direction) (vp : ℕ → ℤ) (s : TraversalState) :
    (cornerStep dir vp s).calls = s.calls ++ cornerEmission dir (vp s.ix) := rfl

/-- Running index of a standalone corner step. -/
theorem cornerStep_ix (dir : Direction) (vp : ℕ → ℤ) (s : TraversalState) :
    (cornerStep dir vp s).ix = s.ix + 1 := rfl

/-- The bottom-edge loop only appends edge runs and synthesized corner
relations: no standalone corner call is issued inside it. -/
theorem bottomEdgeLoop_calls (box : PatchBox) (vp : ℕ → ℤ) :
    ∀ (fuel : ℕ) (i : ℤ) (s : TraversalState),
      ∃ t, (bottomEdgeLoop box vp fuel i s).calls = s.calls ++ t ∧
        ∀ c ∈ t, c.isCornerDefault = false := by
  intro fuel
  induction fuel with
  | zero =>
    intro i s
    exact ⟨[], by simp [bottomEdgeLoop], by simp⟩
  | succ n ih =>
    intro i s
    simp only [bottomEdgeLoop]
    split_ifs
    all_goals try (
      obtain ⟨t, ht, hp⟩ := ih _ _
      rw [ht]
      try dsimp only
      first
        | exact ⟨t, rfl, hp⟩
        | (refine ⟨_, by rw [List.append_assoc], ?_⟩
           intro c hc
           rcases List.mem_append.mp hc with h | h
           · fin_cases h <;> rfl
           · exact hp c h))
    all_goals exact ⟨[], by simp, by simp⟩

/-- The right-edge loop issues no standalone corner call. -/
theorem rightEdgeLoop_calls (box : PatchBox) (vp : ℕ → ℤ) :
    ∀ (fuel : ℕ) (j : ℤ) (s : TraversalState),
      ∃ t, (rightEdgeLoop box vp fuel j s).calls = s.calls ++ t ∧
        ∀ c ∈ t, c.isCornerDefault = false := by
  intro fuel
  induction fuel with
  | zero =>
    intro j s
    exact ⟨[], by simp [rightEdgeLoop], by simp⟩
  | succ n ih =>
    intro j s
    simp only [rightEdgeLoop]
    split_ifs
    all_goals try (
      obtain ⟨t, ht, hp⟩ := ih _ _
      rw [ht]
      try dsimp only
      first
        | exact ⟨t, rfl, hp⟩
        | (refine ⟨_, by rw [List.append_assoc], ?_⟩
           intro c hc
           rcases List.mem_append.mp hc with h | h
           · fin_cases h <;> rfl
           · exact hp c h))
    all_goals exact ⟨[], by simp, by simp⟩

/-- The top-edge loop issues no standalone corner call. -/
theorem topEdgeLoop_calls (box : PatchBox) (vp : ℕ → ℤ) :
    ∀ (fuel : ℕ) (i : ℤ) (s : TraversalState),
      ∃ t, (topEdgeLoop box vp fuel i s).calls = s.calls ++ t ∧
        ∀ c ∈ t, c.isCornerDefault = false := by
  intro fuel
  induction fuel with
  | zero =>
    intro i s
    exact ⟨[], by simp [topEdgeLoop], by simp⟩
  | succ n ih =>
    intro i s
    simp only [topEdgeLoop]
    split_ifs
    all_goals try (
      obtain ⟨t, ht, hp⟩ := ih _ _
      rw [ht]
      try dsimp only
      first
        | exact ⟨t, rfl, hp⟩
        | (refine ⟨_, by rw [List.append_assoc], ?_⟩
           intro c hc
           rcases List.mem_append.mp hc with h | h
           · fin_cases h <;> rfl
           · exact hp c h))
    all_goals exact ⟨[], by simp, by simp⟩

/-- The left-edge loop issues no standalone corner call. -/
theorem leftEdgeLoop_calls (box : PatchBox) (vp : ℕ → ℤ) :
    ∀ (fuel : ℕ) (j : ℤ) (s : TraversalState),
      ∃ t, (leftEdgeLoop box vp fuel j s).calls = s.calls ++ t ∧
        ∀ c ∈ t, c.isCornerDefault = false := by
  intro fuel
  induction fuel with
  | zero =>
    intro j s
    exact ⟨[], by simp [leftEdgeLoop], by simp⟩
  | succ n ih =>
    intro j s
    simp only [leftEdgeLoop]
    split_ifs
    all_goals try (
      obtain ⟨t, ht, hp⟩ := ih _ _
      rw [ht]
      try dsimp only
      first
        | exact ⟨t, rfl, hp⟩
        | (refine ⟨_, by rw [List.append_assoc], ?_⟩
           intro c hc
           rcases List.mem_append.mp hc with h | h
           · fin_cases h <;> rfl
           · exact hp c h))
    all_goals exact ⟨[], by simp, by simp⟩

/-- Structure of the full consumption pass: the calls are the four
standalone corner emissions, taken at sample indices 0,
1 + widthA, 2 + widthA + widthB and 3 + 2 widthA + widthB,
interleaved with edge-loop calls none of which is a standalone corner
relation. -/
theorem initializeConnectivityPatch_calls_decomp (box : PatchBox) (vp : ℕ → ℤ)
    (hA : 0 < box.GetAInteriorWidth) (hB : 0 < box.GetBInteriorWidth) :
    ∃ t1 t2 t3 t4,
      (initializeConnectivityPatch box vp).calls =
        cornerEmission Direction.DirBottomLeft (vp 0) ++ t1 ++
        cornerEmission Direction.DirBottomRight
          (vp (1 + box.GetAInteriorWidth.toNat)) ++ t2 ++
        cornerEmission Direction.DirTopRight
          (vp (2 + box.GetAInteriorWidth.toNat + box.GetBInteriorWidth.toNat)) ++ t3 ++
        cornerEmission Direction.DirTopLeft
          (vp (3 + 2 * box.GetAInteriorWidth.toNat + box.GetBInteriorWidth.toNat)) ++
        t4 ∧
      (∀ c ∈ t1, c.isCornerDefault = false) ∧
      (∀ c ∈ t2, c.isCornerDefault = false) ∧
      (∀ c ∈ t3, c.isCornerDefault = false) ∧
      (∀ c ∈ t4, c.isCornerDefault = false) := by
  have hAB : box.GetAInteriorEnd - box.GetAInteriorBegin = box.GetAInteriorWidth := by
    unfold PatchBox.GetAInteriorEnd PatchBox.GetAInteriorBegin
    omega
  have hBB : box.GetBInteriorEnd - box.GetBInteriorBegin = box.GetBInteriorWidth := by
    unfold PatchBox.GetBInteriorEnd PatchBox.GetBInteriorBegin
    omega
  unfold initializeConnectivityPatch
  set s1 := cornerStep Direction.DirBottomLeft vp
    { ix := 0, mark := 0, cur := 0, calls := [] } with hs1
  set r1 : TraversalState :=
    { s1 with mark := box.GetAInteriorBegin, cur := vp s1.ix } with hr1
  set s2 := bottomEdgeLoop box vp
    (box.GetAInteriorEnd + 1 - box.GetAInteriorBegin).toNat
    box.GetAInteriorBegin r1 with hs2
  set s3 := cornerStep Direction.DirBottomRight vp s2 with hs3
  set r3 : TraversalState :=
    { s3 with mark := box.GetBInteriorBegin, cur := vp s3.ix } with hr3
  set s4 := rightEdgeLoop box vp
    (box.GetBInteriorEnd + 1 - box.GetBInteriorBegin).toNat
    box.GetBInteriorBegin r3 with hs4
  set s5 := cornerStep Direction.DirTopRight vp s4 with hs5
  set r5 : TraversalState :=
    { s5 with mark := box.GetAInteriorEnd, cur := vp s5.ix } with hr5
  set s6 := topEdgeLoop box vp
    (box.GetAInteriorEnd + 1 - box.GetAInteriorBegin).toNat
    (box.GetAInteriorEnd - 1) r5 with hs6
  set s7 := cornerStep Direction.DirTopLeft vp s6 with hs7
  set r7 : TraversalState :=
    { s7 with mark := box.GetBInteriorEnd, cur := vp s7.ix } with hr7
  set s8 := leftEdgeLoop box vp
    (box.GetBInteriorEnd + 1 - box.GetBInteriorBegin).toNat
    (box.GetBInteriorEnd - 1) r7 with hs8
  have hx1 : s1.ix = 1 := by rw [hs1]; rfl
  have hxr1 : r1.ix = 1 := by rw [hr1, hx1]
  have hx2 : (s2.ix : ℤ) = 1 + box.GetAInteriorWidth := by
    rw [hs2, bottomEdgeLoop_ix box vp
      (box.GetAInteriorEnd + 1 - box.GetAInteriorBegin).toNat
      box.GetAInteriorBegin r1 (by omega), hxr1]
    push_cast
    omega
  have hx3 : s3.ix = s2.ix + 1 := by rw [hs3]; rfl
  have hxr3 : r3.ix = s2.ix + 1 := by rw [hr3, hx3]
  have hx4 : (s4.ix : ℤ) = 2 + box.GetAInteriorWidth + box.GetBInteriorWidth := by
    rw [hs4, rightEdgeLoop_ix box vp
      (box.GetBInteriorEnd + 1 - box.GetBInteriorBegin).toNat
      box.GetBInteriorBegin r3 (by omega), hxr3]
    push_cast
    omega
  have hx5 : s5.ix = s4.ix + 1 := by rw [hs5]; rfl
  have hxr5 : r5.ix = s4.ix + 1 := by rw [hr5, hx5]
  have hx6 : (s6.ix : ℤ) =
      3 + 2 * box.GetAInteriorWidth + box.GetBInteriorWidth := by
    rw [hs6, topEdgeLoop_ix box vp
      (box.GetAInteriorEnd + 1 - box.GetAInteriorBegin).toNat
      (box.GetAInteriorEnd - 1) r5 (by omega), hxr5]
    push_cast
    omega
  have hn2 : s2.ix = 1 + box.GetAInteriorWidth.toNat := by omega
  have hn4 : s4.ix =
      2 + box.GetAInteriorWidth.toNat + box.GetBInteriorWidth.toNat := by omega
  have hn6 : s6.ix =
      3 + 2 * box.GetAInteriorWidth.toNat + box.GetBInteriorWidth.toNat := by omega
  obtain ⟨t1, ht1, hp1⟩ := bottomEdgeLoop_calls box vp
    (box.GetAInteriorEnd + 1 - box.GetAInteriorBegin).toNat
    box.GetAInteriorBegin r1
  rw [← hs2] at ht1
  obtain ⟨t2, ht2, hp2⟩ := rightEdgeLoop_calls box vp
    (box.GetBInteriorEnd + 1 - box.GetBInteriorBegin).toNat
    box.GetBInteriorBegin r3
  rw [← hs4] at ht2
  obtain ⟨t3, ht3, hp3⟩ := topEdgeLoop_calls box vp
    (box.GetAInteriorEnd + 1 - box.GetAInteriorBegin).toNat
    (box.GetAInteriorEnd - 1) r5
  rw [← hs6] at ht3
  obtain ⟨t4, ht4, hp4⟩ := leftEdgeLoop_calls box vp
    (box.GetBInteriorEnd + 1 - box.GetBInteriorBegin).toNat
    (box.GetBInteriorEnd - 1) r7
  rw [← hs8] at ht4
  have hc1 : s1.calls = cornerEmission Direction.DirBottomLeft (vp 0) := by
    rw [hs1, cornerStep_calls]
    simp
  have hcr1 : r1.calls = s1.calls := by rw [hr1]
  have hc3 : s3.calls =
      s2.calls ++ cornerEmission Direction.DirBottomRight (vp s2.ix) := by
    rw [hs3, cornerStep_calls]
  have hcr3 : r3.calls = s3.calls := by rw [hr3]
  have hc5 : s5.calls =
      s4.calls ++ cornerEmission Direction.DirTopRight (vp s4.ix) := by
    rw [hs5, cornerStep_calls]
  have hcr5 : r5.calls = s5.calls := by rw [hr5]
  have hc7 : s7.calls =
      s6.calls ++ cornerEmission Direction.DirTopLeft (vp s6.ix) := by
    rw [hs7, cornerStep_calls]
  have hcr7 : r7.calls = s7.calls := by rw [hr7]
  refine ⟨t1, t2, t3, t4, ?_, hp1, hp2, hp3, hp4⟩
  rw [ht4, hcr7, hc7, ht3, hcr5, hc5, ht2, hcr3, hc3, ht1, hcr1, hc1]
  rw [hn2, hn4, hn6]

/-- C5 counterexample: with every boundary sample resolving to
patch 7, the bottom-left corner sample resolves to the same patch as
both adjacent edges (the first bottom-edge sample, index 1, and the
last left-edge sample, index 11), yet the standalone bottom-left
corner relation is still emitted — refuting the claim that a
standalone corner relation is created only when the corner patch
differs from both adjacent edges. -/
theorem C5_corner_equal_edge_still_emitted :
    ConnectCall.cornerDefault Direction.DirBottomLeft 7 ∈
      (initializeConnectivityPatch sampleBox constPatch7).calls ∧
    constPatch7 0 = constPatch7 1 ∧
    constPatch7 0 = constPatch7 11 := by
  refine ⟨?_, rfl, rfl⟩
  decide

/-- C5 amended: a standalone corner relation is emitted for a corner
exactly when the resolved patch at that corner sample is valid
(different from InvalidIndex), regardless of the patches resolved on
the adjacent edges, and the relation records that resolved patch. -/
theorem C5_standalone_corner_condition (box : PatchBox) (vp : ℕ → ℤ)
    (hA : 0 < box.GetAInteriorWidth) (hB : 0 < box.GetBInteriorWidth) (p : ℤ) :
    (ConnectCall.cornerDefault Direction.DirBottomLeft p ∈
        (initializeConnectivityPatch box vp).calls ↔
      (vp 0 ≠ InvalidIndex ∧ p = vp 0)) ∧
    (ConnectCall.cornerDefault Direction.DirBottomRight p ∈
        (initializeConnectivityPatch box vp).calls ↔
      (vp (1 + box.GetAInteriorWidth.toNat) ≠ InvalidIndex ∧
        p = vp (1 + box.GetAInteriorWidth.toNat))) ∧
    (ConnectCall.cornerDefault Direction.DirTopRight p ∈
        (initializeConnectivityPatch box vp).calls ↔
      (vp (2 + box.GetAInteriorWidth.toNat + box.GetBInteriorWidth.toNat) ≠
          InvalidIndex ∧
        p = vp (2 + box.GetAInteriorWidth.toNat + box.GetBInteriorWidth.toNat))) ∧
    (ConnectCall.cornerDefault Direction.DirTopLeft p ∈
        (initializeConnectivityPatch box vp).calls ↔
      (vp (3 + 2 * box.GetAInteriorWidth.toNat + box.GetBInteriorWidth.toNat) ≠
          InvalidIndex ∧
        p = vp (3 + 2 * box.GetAInteriorWidth.toNat +
          box.GetBInteriorWidth.toNat))) := by
  obtain ⟨t1, t2, t3, t4, hdec, hp1, hp2, hp3, hp4⟩ :=
    initializeConnectivityPatch_calls_decomp box vp hA hB
  have m1 : ∀ (d : Direction) (q : ℤ), ConnectCall.cornerDefault d q ∉ t1 := by
    intro d q hmem
    have := hp1 _ hmem
    simp [ConnectCall.isCornerDefault] at this
  have m2 : ∀ (d : Direction) (q : ℤ), ConnectCall.cornerDefault d q ∉ t2 := by
    intro d q hmem
    have := hp2 _ hmem
    simp [ConnectCall.isCornerDefault] at this
  have m3 : ∀ (d : Direction) (q : ℤ), ConnectCall.cornerDefault d q ∉ t3 := by
    intro d q hmem
    have := hp3 _ hmem
    simp [ConnectCall.isCornerDefault] at this
  have m4 : ∀ (d : Direction) (q : ℤ), ConnectCall.cornerDefault d q ∉ t4 := by
    intro d q hmem
    have := hp4 _ hmem
    simp [ConnectCall.isCornerDefault] at this
  rw [hdec]
  refine ⟨?_, ?_, ?_, ?_⟩ <;>
    simp [List.mem_append, cornerDefault_mem_cornerEmission, m1, m2, m3, m4]

/-- C5 amended witness: on the sample box with the constant resolver
(patch 7, valid), the standalone bottom-left corner relation is
present exactly as the amended condition states. -/
theorem C5_standalone_corner_condition_witness :
    ConnectCall.cornerDefault Direction.DirBottomLeft 7 ∈
        (initializeConnectivityPatch sampleBox constPatch7).calls ↔
      (constPatch7 0 ≠ InvalidIndex ∧ (7 : ℤ) = constPatch7 0) :=
  (C5_standalone_corner_condition sampleBox constPatch7 (by decide) (by decide) 7).1

/-- Folding additive accumulation equals the initial value plus the
sum of the contributions. -/
theorem foldl_add_eq {α : Type} (l : List α) (f : α → ℝ) (x : ℝ) :
    l.foldl (fun a t => a + f t) x = x + (l.map f).sum := by
  induction l generalizing x with
  | nil => simp
  | cons a l ih => simp [ih, add_assoc]

/-- Folding max distributes over a max in the initial value. -/
theorem foldl_max_max (l : List ℝ) (x y : ℝ) :
    l.foldl max (max x y) = max x (l.foldl max y) := by
  induction l generalizing x y with
  | nil => simp
  | cons a l ih =>
    simp only [List.foldl_cons]
    rw [max_assoc, ih]

/-- The initial value is a lower bound of a max fold. -/
theorem le_foldl_max_init (l : List ℝ) (x : ℝ) : x ≤ l.foldl max x := by
  induction l generalizing x with
  | nil => exact le_refl x
  | cons a l ih => exact le_trans (le_max_left x a) (ih (max x a))

/-- A max fold from a non-negative start equals the start joined with
the max fold from zero. -/
theorem foldl_max_shift (l : List ℝ) (x : ℝ) (hx : 0 ≤ x) :
    l.foldl max x = max x (l.foldl max 0) := by
  cases l with
  | nil => simp [max_eq_left hx]
  | cons a l =>
    simp only [List.foldl_cons]
    rw [foldl_max_max l x a, foldl_max_max l 0 a, ← max_assoc, max_eq_left hx]

/-- The Linf accumulation step is a max with the absolute value. -/
theorem checksumStep_Linf (v a acc : ℝ) :
    checksumStep ChecksumType.Linf v a acc = max acc |v| := by
  unfold checksumStep
  rcases le_or_lt |v| acc with h | h
  · rw [if_neg (not_lt.mpr h), max_eq_left h]
  · rw [if_pos h, max_eq_right h.le]

/-- Closed form of the Sum accumulation over a loop nest. -/
theorem accumTriples_Sum (val area : ℕ × ℕ × ℕ → ℝ)
    (l : List (ℕ × ℕ × ℕ)) (x : ℝ) :
    accumTriples ChecksumType.Sum val area l x =
      x + (l.map (fun t => val t * area t)).sum :=
  foldl_add_eq l _ x

/-- Closed form of the L1 accumulation over a loop nest. -/
theorem accumTriples_L1 (val area : ℕ × ℕ × ℕ → ℝ)
    (l : List (ℕ × ℕ × ℕ)) (x : ℝ) :
    accumTriples ChecksumType.L1 val area l x =
      x + (l.map (fun t => |val t| * area t)).sum :=
  foldl_add_eq l _ x

/-- Closed form of the L2 accumulation over a loop nest. -/
theorem accumTriples_L2 (val area : ℕ × ℕ × ℕ → ℝ)
    (l : List (ℕ × ℕ × ℕ)) (x : ℝ) :
    accumTriples ChecksumType.L2 val area l x =
      x + (l.map (fun t => val t * val t * area t)).sum :=
  foldl_add_eq l _ x

/-- Closed form of the Linf accumulation over a loop nest. -/
theorem accumTriples_Linf (val area : ℕ × ℕ × ℕ → ℝ)
    (l : List (ℕ × ℕ × ℕ)) (x : ℝ) :
    accumTriples ChecksumType.Linf val area l x =
      (l.map (fun t => |val t|)).foldl max x := by
  unfold accumTriples
  induction l generalizing x with
  | nil => rfl
  | cons a l ih =>
    simp only [List.foldl_cons, List.map_cons]
    rw [checksumStep_Linf]
    exact ih _

/-- The per-patch entry update written through the per-component loop
nest, value and area selectors. -/
theorem patchChecksumEntry_eq (g : ChkGrid) (dt : ChecksumDataType)
    (ct : ChecksumType) (p : ChkPatch) (c : ℕ) (acc : ℝ) :
    patchChecksumEntry g.nRElements g.varLocation dt ct p c acc =
      accumTriples ct (compValue g dt c p) (compArea g dt c p)
        (compTriples g dt c p) acc := by
  cases dt with
  | State =>
    cases hl : g.varLocation c
    · have hv : compValue g ChecksumDataType.State c p =
          fun t => p.dataStateNode c t.1 t.2.1 t.2.2 := by
        funext t
        simp [compValue, hl]
      have ha : compArea g ChecksumDataType.State c p =
          fun t => p.elementArea t.1 t.2.1 t.2.2 := by
        funext t
        simp [compArea, hl]
      simp [patchChecksumEntry, compTriples, hl, hv, ha]
    · have hv : compValue g ChecksumDataType.State c p =
          fun t => p.dataStateREdge c t.1 t.2.1 t.2.2 := by
        funext t
        simp [compValue, hl]
      have ha : compArea g ChecksumDataType.State c p =
          fun t => p.elementAreaREdge t.1 t.2.1 t.2.2 := by
        funext t
        simp [compArea, hl]
      simp [patchChecksumEntry, compTriples, hl, hv, ha]
  | Tracers =>
    have hv : compValue g ChecksumDataType.Tracers c p =
        fun t => p.dataTracers c t.1 t.2.1 t.2.2 := by
      funext t
      simp [compValue]
    have ha : compArea g ChecksumDataType.Tracers c p =
        fun t => p.elementArea t.1 t.2.1 t.2.2 := by
      funext t
      simp [compArea]
    simp [patchChecksumEntry, compTriples, hv, ha]

/-- Local Sum checksum of one process: the sum of the per-patch
area-weighted sums. -/
theorem localChecksum_Sum (g : ChkGrid) (dt : ChecksumDataType)
    (patches : List ChkPatch) (c : ℕ) :
    localChecksum g dt ChecksumType.Sum patches c =
      (patches.map (fun p => ((compTriples g dt c p).map (fun t =>
        compValue g dt c p t * compArea g dt c p t)).sum)).sum := by
  unfold localChecksum
  suffices h : ∀ x : ℝ, patches.foldl (fun acc p =>
      patchChecksumEntry g.nRElements g.varLocation dt ChecksumType.Sum p c acc) x =
      x + (patches.map (fun p => ((compTriples g dt c p).map (fun t =>
        compValue g dt c p t * compArea g dt c p t)).sum)).sum by
    simpa using h 0
  intro x
  induction patches generalizing x with
  | nil => simp
  | cons p ps ih =>
    simp only [List.foldl_cons, List.map_cons, List.sum_cons]
    rw [patchChecksumEntry_eq, accumTriples_Sum, ih]
    ring

/-- Local L1 checksum of one process. -/
theorem localChecksum_L1 (g : ChkGrid) (dt : ChecksumDataType)
    (patches : List ChkPatch) (c : ℕ) :
    localChecksum g dt ChecksumType.L1 patches c =
      (patches.map (fun p => ((compTriples g dt c p).map (fun t =>
        |compValue g dt c p t| * compArea g dt c p t)).sum)).sum := by
  unfold localChecksum
  suffices h : ∀ x : ℝ, patches.foldl (fun acc p =>
      patchChecksumEntry g.nRElements g.varLocation dt ChecksumType.L1 p c acc) x =
      x + (patches.map (fun p => ((compTriples g dt c p).map (fun t =>
        |compValue g dt c p t| * compArea g dt c p t)).sum)).sum by
    simpa using h 0
  intro x
  induction patches generalizing x with
  | nil => simp
  | cons p ps ih =>
    simp only [List.foldl_cons, List.map_cons, List.sum_cons]
    rw [patchChecksumEntry_eq, accumTriples_L1, ih]
    ring

/-- Local L2 checksum of one process (no square root is taken
locally). -/
theorem localChecksum_L2 (g : ChkGrid) (dt : ChecksumDataType)
    (patches : List ChkPatch) (c : ℕ) :
    localChecksum g dt ChecksumType.L2 patches c =
      (patches.map (fun p => ((compTriples g dt c p).map (fun t =>
        compValue g dt c p t * compValue g dt c p t * compArea g dt c p t)).sum)).sum := by
  unfold localChecksum
  suffices h : ∀ x : ℝ, patches.foldl (fun acc p =>
      patchChecksumEntry g.nRElements g.varLocation dt ChecksumType.L2 p c acc) x =
      x + (patches.map (fun p => ((compTriples g dt c p).map (fun t =>
        compValue g dt c p t * compValue g dt c p t * compArea g dt c p t)).sum)).sum by
    simpa using h 0
  intro x
  induction patches generalizing x with
  | nil => simp
  | cons p ps ih =>
    simp only [List.foldl_cons, List.map_cons, List.sum_cons]
    rw [patchChecksumEntry_eq, accumTriples_L2, ih]
    ring

/-- Local Linf checksum of one process: the running maximum, from
zero, of the absolute values over all its patches. -/
theorem localChecksum_Linf (g : ChkGrid) (dt : ChecksumDataType)
    (patches : List ChkPatch) (c : ℕ) :
    localChecksum g dt ChecksumType.Linf patches c =
      (patches.flatMap (fun p => (compTriples g dt c p).map (fun t =>
        |compValue g dt c p t|))).foldl max 0 := by
  unfold localChecksum
  suffices h : ∀ x : ℝ, patches.foldl (fun acc p =>
      patchChecksumEntry g.nRElements g.varLocation dt ChecksumType.Linf p c acc) x =
      (patches.flatMap (fun p => (compTriples g dt c p).map (fun t =>
        |compValue g dt c p t|))).foldl max x from h 0
  intro x
  induction patches generalizing x with
  | nil => rfl
  | cons p ps ih =>
    simp only [List.foldl_cons, List.flatMap_cons, List.foldl_append]
    rw [patchChecksumEntry_eq, accumTriples_Linf, ih]

/-- MPI_SUM over the process contributions is their sum. -/
theorem mpiReduce_add (l : List ℝ) : mpiReduce (fun a b => a + b) l = l.sum := by
  cases l with
  | nil => rfl
  | cons x xs =>
    show xs.foldl (fun a b => a + b) x = x + xs.sum
    simpa using foldl_add_eq xs id x

/-- MPI_MAX over non-negative contributions equals the max fold from
zero. -/
theorem mpiReduce_max_nonneg (l : List ℝ) (hl : ∀ v ∈ l, 0 ≤ v) :
    mpiReduce max l = l.foldl max 0 := by
  cases l with
  | nil => rfl
  | cons x xs =>
    have hx : 0 ≤ x := hl x (by simp)
    show xs.foldl max x = xs.foldl max (max 0 x)
    rw [max_eq_right hx]

/-- Summing per-process sums equals summing over all patches. -/
theorem sum_over_procs (procs : List (List ChkPatch)) (S : ChkPatch → ℝ) :
    (procs.map (fun pr => (pr.map S).sum)).sum = (procs.flatten.map S).sum := by
  induction procs with
  | nil => rfl
  | cons pr ps ih => simp [ih]

/-- Max-folding per-process maxima equals max-folding over the
flattened values, for non-negative values. -/
theorem foldl_max_flat (ls : List (List ℝ)) (x : ℝ) (hx : 0 ≤ x)
    (hnn : ∀ l ∈ ls, ∀ v ∈ l, 0 ≤ v) :
    (ls.map (fun l => l.foldl max 0)).foldl max x = ls.flatten.foldl max x := by
  induction ls generalizing x with
  | nil => rfl
  | cons l ls ih =>
    simp only [List.map_cons, List.foldl_cons, List.flatten_cons, List.foldl_append]
    rw [foldl_max_shift l x hx]
    exact ih (max x (l.foldl max 0))
      (le_trans hx (le_max_left _ _))
      (fun l2 h2 v hv => hnn l2 (by simp [h2]) v hv)

/-- Flattening per-process value lists equals flattening over all
patches. -/
theorem flatMap_over_procs (procs : List (List ChkPatch))
    (f : ChkPatch → List ℝ) :
    (procs.map (fun pr => pr.flatMap f)).flatten = procs.flatten.flatMap f := by
  induction procs with
  | nil => rfl
  | cons pr ps ih => simp [ih]

/-- C3: for every checksum type and checksum data type, the root value
computed by Grid::Checksum — per-process area-weighted accumulation
over the interior nodes of each active patch, cross-process reduction
with MPI_MAX for Linf and MPI_SUM otherwise, square root at the root
only after the reduction and only for L2 — equals the direct global
formula of the specification: sum of value times area for Sum,
absolute value times area for L1, square root of the summed squared
value times area for L2, and the maximum absolute value for Linf. -/
theorem C3_checksum_structure (g : ChkGrid) (dt : ChecksumDataType)
    (ct : ChecksumType) (c : ℕ) :
    gridChecksum g dt ct c = checksumSpec g dt ct c := by
  cases ct with
  | Sum =>
    show mpiReduce (fun a b => a + b)
        (g.procs.map (fun patches => localChecksum g dt ChecksumType.Sum patches c)) =
      checksumSpec g dt ChecksumType.Sum c
    rw [mpiReduce_add]
    rw [List.map_congr_left (fun pr _ => localChecksum_Sum g dt pr c)]
    unfold checksumSpec allActivePatches
    exact sum_over_procs g.procs _
  | L1 =>
    show mpiReduce (fun a b => a + b)
        (g.procs.map (fun patches => localChecksum g dt ChecksumType.L1 patches c)) =
      checksumSpec g dt ChecksumType.L1 c
    rw [mpiReduce_add]
    rw [List.map_congr_left (fun pr _ => localChecksum_L1 g dt pr c)]
    unfold checksumSpec allActivePatches
    exact sum_over_procs g.procs _
  | L2 =>
    show Real.sqrt (mpiReduce (fun a b => a + b)
        (g.procs.map (fun patches => localChecksum g dt ChecksumType.L2 patches c))) =
      checksumSpec g dt ChecksumType.L2 c
    rw [mpiReduce_add]
    rw [List.map_congr_left (fun pr _ => localChecksum_L2 g dt pr c)]
    unfold checksumSpec allActivePatches
    rw [sum_over_procs g.procs _]
  | Linf =>
    show mpiReduce max
        (g.procs.map (fun patches => localChecksum g dt ChecksumType.Linf patches c)) =
      checksumSpec g dt ChecksumType.Linf c
    rw [List.map_congr_left (fun pr _ => localChecksum_Linf g dt pr c)]
    rw [mpiReduce_max_nonneg _ ?nonneg]
    case nonneg =>
      intro v hv
      rcases List.mem_map.mp hv with ⟨pr, _, hveq⟩
      rw [← hveq]
      exact le_foldl_max_init _ 0
    rw [show (g.procs.map (fun pr => (pr.flatMap (fun p =>
        (compTriples g dt c p).map (fun t => |compValue g dt c p t|))).foldl max 0)) =
      ((g.procs.map (fun pr => pr.flatMap (fun p =>
        (compTriples g dt c p).map (fun t => |compValue g dt c p t|)))).map
          (fun l => l.foldl max 0)) from by rw [List.map_map]; rfl]
    rw [foldl_max_flat _ 0 le_rfl ?flatnn]
    case flatnn =>
      intro l hl v hv
      rcases List.mem_map.mp hl with ⟨pr, _, hleq⟩
      rw [← hleq] at hv
      rcases List.mem_flatMap.mp hv with ⟨p, _, hvm⟩
      rcases List.mem_map.mp hvm with ⟨t, _, hveq⟩
      rw [← hveq]
      exact abs_nonneg _
    rw [flatMap_over_procs]
    rfl

end Tempest
